import Mathlib

/-!
Verification of the terms-conditions-analyzer core (`analyzer.py`, `multi_compare.py`)
against its specification.

Texts are modelled as `List Char`.  Python regular expressions are embedded as a
small regex AST (`RE`) with a Brzozowski-derivative matcher; `re.search` becomes
`rsearch` (does the pattern match some substring).  Python floats are modelled as
exact rationals (`ℚ`); all the properties proved here are independent of
floating-point rounding noise.
-/

namespace TCA

/-- Python `\s` (ASCII whitespace, as used by `re.sub(r'\s+', ...)` and `str.strip`). -/
def isWS (c : Char) : Bool :=
  c = ' ' || c = '\t' || c = '\n' || c = '\r' || c = '\x0b' || c = '\x0c'

/-- Python `\w` (ASCII fragment: letters, digits, underscore). -/
def isWordChar (c : Char) : Bool := c.isAlphanum || c = '_'

/-- Python `\d`. -/
def isDigitChar (c : Char) : Bool := c.isDigit

/-- ASCII lower-casing, modelling Python `str.lower` on the ASCII texts involved. -/
def lowerStr (s : List Char) : List Char := s.map Char.toLower

/-! ### Regular expressions

The AST covers exactly the constructs appearing in the repository's patterns:
literal characters, `.` (any char except newline), character classes (`\w`, `\s`,
`\d`, `[A-Z]`, ...), concatenation, alternation, `*` and `?`.  Word boundaries
(`\b`) occur in the source only at the edges of a pattern and are handled by the
`Pat` wrapper below. -/

inductive RE where
  | emp                          -- matches nothing
  | eps                          -- empty string
  | anyc                         -- Python `.` : any char except '\n'
  | lit (c : Char)
  | cls (p : Char → Bool)        -- character class
  | cat (r₁ r₂ : RE)
  | alt (r₁ r₂ : RE)
  | star (r : RE)

namespace RE

def nullable : RE → Bool
  | emp => false
  | eps => true
  | anyc => false
  | lit _ => false
  | cls _ => false
  | cat r₁ r₂ => nullable r₁ && nullable r₂
  | alt r₁ r₂ => nullable r₁ || nullable r₂
  | star _ => true

/-- Simplifying concatenation (keeps derivatives small). -/
def mkCat : RE → RE → RE
  | emp, _ => emp
  | eps, r => r
  | r₁, r₂ =>
    match r₂ with
    | emp => emp
    | eps => r₁
    | _ => cat r₁ r₂

/-- Simplifying alternation. -/
def mkAlt : RE → RE → RE
  | emp, r => r
  | r₁, r₂ =>
    match r₂ with
    | emp => r₁
    | _ => alt r₁ r₂

/-- Brzozowski derivative. -/
def deriv : RE → Char → RE
  | emp, _ => emp
  | eps, _ => emp
  | anyc, c => if c = '\n' then emp else eps
  | lit a, c => if c = a then eps else emp
  | cls p, c => if p c then eps else emp
  | cat r₁ r₂, c =>
    if nullable r₁ then mkAlt (mkCat (deriv r₁ c) r₂) (deriv r₂ c)
    else mkCat (deriv r₁ c) r₂
  | alt r₁ r₂, c => mkAlt (deriv r₁ c) (deriv r₂ c)
  | star r, c => mkCat (deriv r c) (star r)

/-- Whole-string match: fold the derivative over the word. -/
def rmatch (r : RE) : List Char → Bool
  | [] => nullable r
  | c :: cs => rmatch (deriv r c) cs

/-- `r?` -/
def opt (r : RE) : RE := alt r eps

/-- `r+` -/
def plus (r : RE) : RE := cat r (star r)

/-- `.*` -/
def dotStar : RE := star anyc

/-- A literal string of characters. -/
def lits : List Char → RE
  | [] => eps
  | [c] => lit c
  | c :: cs => cat (lit c) (lits cs)

end RE

open RE

/-- Does `r` match some prefix of `s`?  (One derivative pass.) -/
def prefMatch (r : RE) : List Char → Bool
  | [] => r.nullable
  | c :: cs => r.nullable || prefMatch (r.deriv c) cs

/-- Models Python `re.search(r, s) is not None` for patterns without `\b`:
does `r` match some substring of `s`?  Tries every start position. -/
def rsearch (r : RE) : List Char → Bool
  | [] => prefMatch r []
  | s@(_ :: cs) => prefMatch r s || rsearch r cs

/-! ### Word boundaries

`\b` occurs in the repository's patterns only at the very start or end of a
pattern, so a full pattern is a core regex plus two boundary flags. -/

structure Pat where
  lb : Bool      -- leading `\b`
  re : RE
  rb : Bool      -- trailing `\b`

/-- Python `\b` between characters `prev` and `next` (`none` = string edge):
exactly one of the two sides is a word character. -/
def wbAt (prev next : Option Char) : Bool :=
  (match prev with | some c => isWordChar c | none => false) !=
  (match next with | some c => isWordChar c | none => false)

/-- All splits `(s.take i, s.drop i)` of `s`. -/
def splitsOf (s : List Char) : List (List Char × List Char) :=
  (List.range (s.length + 1)).map fun i => (s.take i, s.drop i)

/-- `re.search` for a pattern with possible edge `\b`s: some split
`s = a ++ w ++ b` where the core matches `w` and the requested boundaries hold. -/
def psearch (p : Pat) (s : List Char) : Bool :=
  if p.lb || p.rb then
    (splitsOf s).any fun aw =>
      (splitsOf aw.2).any fun wb =>
        p.re.rmatch wb.1 &&
        (!p.lb || wbAt aw.1.getLast? (wb.1 ++ wb.2).head?) &&
        (!p.rb || wbAt (aw.1 ++ wb.1).getLast? wb.2.head?)
  else rsearch p.re s

/-- A pattern with no word boundaries. -/
def pat (r : RE) : Pat := ⟨false, r, false⟩

/-! ### The text normalizer `_clean`

`_clean(text) = re.sub(r'\s+', ' ', text).strip()`: every maximal whitespace
run becomes a single space (`collapse`), then edge whitespace is removed
(`strip`). -/

/-- `re.sub(r'\s+', ' ', text)`: each maximal whitespace run becomes one space. -/
def collapse : List Char → List Char
  | [] => []
  | [c] => [if isWS c then ' ' else c]
  | c :: d :: rest =>
    if isWS c && isWS d then collapse (d :: rest)
    else (if isWS c then ' ' else c) :: collapse (d :: rest)

/-- Remove trailing whitespace. -/
def dropTrailWS (l : List Char) : List Char := (l.reverse.dropWhile isWS).reverse

/-- Python `str.strip`. -/
def strip (l : List Char) : List Char := dropTrailWS (l.dropWhile isWS)

/-- `analyzer._clean`. -/
def clean (s : List Char) : List Char := strip (collapse s)

/-! ### Pattern-building helpers -/

/-- A literal string pattern. -/
def rlit (s : String) : RE := RE.lits s.data

/-- Concatenation of a list of regexes. -/
def seqs : List RE → RE
  | [] => RE.eps
  | [r] => r
  | r :: rs => RE.cat r (seqs rs)

/-- `_has(text, *patterns)`: lower-case the text, then search each pattern. -/
def hasPat (text : List Char) (pats : List Pat) : Bool :=
  pats.any fun p => psearch p (lowerStr text)

/-! ### Evidence finder (`_find_evidence`) -/

/-- `re.split(r'(?<=[.!?])\s+', text)`: cut after a sentence-ending punctuation
character that is followed by whitespace; the whitespace run is consumed. -/
def splitSentGo (cur : List Char) (s : List Char) : List (List Char) :=
  match s with
  | [] => [cur.reverse]
  | c :: rest =>
    if (c = '.' || c = '!' || c = '?') &&
       (match rest with | d :: _ => isWS d | [] => false) then
      (cur.reverse ++ [c]) :: splitSentGo [] (rest.dropWhile isWS)
    else splitSentGo (c :: cur) rest
termination_by s.length
decreasing_by
  · simpa using Nat.lt_succ_of_le (List.dropWhile_suffix isWS).length_le
  · simp

def splitSentences (s : List Char) : List (List Char) := splitSentGo [] s

/-- The deduplication key: `re.sub(r'\s+', ' ', s.lower()[:80])`. -/
def feKey (s : List Char) : List Char := collapse ((lowerStr s).take 80)

/-- The `_find_evidence` loop over candidate sentences. -/
def feGo (maxR : Nat) (pats : List RE) :
    List (List Char) → List (List Char) → List (List Char) → List (List Char)
  | [], _, found => found
  | s0 :: rest, seen, found =>
    let s := clean s0
    if s.length < 20 || 500 < s.length then feGo maxR pats rest seen found
    else
      let hit := pats.any fun p => rsearch p (lowerStr s)
      let app : Bool := hit && !(seen.contains (feKey s))
      let seen' := if app then feKey s :: seen else seen
      let found' := if app then found ++ [s] else found
      if maxR ≤ found'.length then found' else feGo maxR pats rest seen' found'

/-- `_find_evidence(text, *patterns, max_results)`; the source always calls it
with the default `max_results = 2`. -/
def find_evidence (text : List Char) (pats : List RE) (maxResults : Nat) : List (List Char) :=
  feGo maxResults pats (splitSentences text) [] []

/-! ### Risk scoring -/

/-- `RISK_PATTERNS`, pattern by pattern from the source table. -/
def RISK_PATTERNS : List (Nat × RE) := [
  (15, rlit "irrevocable"),
  (15, seqs [rlit "waive", dotStar, rlit "right"]),
  (15, rlit "no refund"),
  (15, rlit "class action waiver"),
  (15, rlit "binding arbitration"),
  (14, seqs [rlit "sell", dotStar, rlit "personal ", RE.alt (rlit "data") (rlit "information")]),
  (12, rlit "at our sole discretion"),
  (12, seqs [rlit "without ", opt (rlit "prior "), rlit "notice"]),
  (12, seqs [rlit "we may terminate", dotStar, rlit "at any time"]),
  (12, rlit "unlimited liability"),
  (12, seqs [rlit "may share", dotStar, rlit "personal", dotStar, rlit "third"]),
  (10, seqs [rlit "auto", opt anyc, rlit "renew"]),
  (10, seqs [rlit "may change", dotStar, rlit "terms", dotStar, rlit "without notice"]),
  (10, seqs [rlit "unilateral", opt (rlit "ly"), dotStar, rlit "modif"]),
  (15, rlit "foreclosure"),
  (12, seqs [rlit "cross", anyc, rlit "default"]),
  (12, seqs [rlit "acceleration", dotStar, rlit "clause"]),
  (12, seqs [rlit "wage", dotStar, rlit "garnish"]),
  (10, seqs [rlit "non", anyc, rlit "compete"]),
  (10, seqs [rlit "perpetual", dotStar, rlit "license"]),
  (10, seqs [rlit "track", dotStar, rlit "location"]),
  (10, seqs [rlit "monitor", dotStar, rlit "communication"]),
  (7,  rlit "limitation of liability"),
  (6,  rlit "disclaimer of warranties"),
  (6,  seqs [rlit "as", anyc, rlit "is"]),
  (6,  rlit "indemnif"),
  (5,  rlit "governing law"),
  (5,  rlit "dispute resolution"),
  (5,  rlit "force majeure"),
  (4,  rlit "intellectual property"),
  (3,  rlit "cookies"),
  (3,  seqs [rlit "aggregate", dotStar, rlit "data"])]

/-- `compute_risk(text) -> (level, reason, score)`. -/
def compute_risk (text : List Char) : String × String × Nat :=
  let t := lowerStr text
  let score := min (((RISK_PATTERNS.filter fun wp => rsearch wp.2 t).map Prod.fst).sum) 100
  if 50 ≤ score then
    ("High", "Contains several aggressive clauses — liability waivers, arbitration requirements, or data-sharing terms.", score)
  else if 25 ≤ score then
    ("Medium", "Has some notable clauses around liability, data use, or cancellation that deserve attention.", score)
  else
    ("Low", "Mostly standard terms with no particularly aggressive conditions detected.", score)

/-! ### Readability scoring -/

def isPunct (c : Char) : Bool := c = '.' || c = '!' || c = '?'

/-- `re.split(r'[.!?]+', text)`: split at maximal punctuation runs. -/
def splitRunsGo (p : Char → Bool) (cur : List Char) (s : List Char) : List (List Char) :=
  match s with
  | [] => [cur.reverse]
  | c :: rest =>
    if p c then cur.reverse :: splitRunsGo p [] (rest.dropWhile p)
    else splitRunsGo p (c :: cur) rest
termination_by s.length
decreasing_by
  · simpa using Nat.lt_succ_of_le (List.dropWhile_suffix p).length_le
  · simp

def splitRunsOn (p : Char → Bool) (s : List Char) : List (List Char) := splitRunsGo p [] s

/-- Maximal nonempty runs of characters satisfying `p` (models `re.findall` of a
character-class `+` pattern). -/
def runsOf (p : Char → Bool) (s : List Char) : List (List Char) :=
  match s with
  | [] => []
  | c :: rest =>
    if p c then (c :: rest.takeWhile p) :: runsOf p (rest.dropWhile p)
    else runsOf p rest
termination_by s.length
decreasing_by
  · simpa using Nat.lt_succ_of_le (List.dropWhile_suffix p).length_le
  · simp

def isVowelY (c : Char) : Bool :=
  c = 'a' || c = 'e' || c = 'i' || c = 'o' || c = 'u' || c = 'y'

def isVowelNoY (c : Char) : Bool :=
  c = 'a' || c = 'e' || c = 'i' || c = 'o' || c = 'u'

/-- Count of non-overlapping `[^aeiouy]ion` matches. -/
def countConsIon : List Char → Nat
  | c :: d :: e :: f :: rest =>
    if !isVowelY c && d = 'i' && e = 'o' && f = 'n' then 1 + countConsIon rest
    else countConsIon (d :: e :: f :: rest)
  | _ => 0

/-- `word.endswith('e') and len(word) > 2 and word[-2] not in 'aeiou'`. -/
def endsSilentE (w : List Char) : Bool :=
  w.getLast? = some 'e' && decide (2 < w.length) &&
  (match w.dropLast.getLast? with | some c => !isVowelNoY c | none => false)

/-- `_count_syllables`. -/
def count_syllables (word : List Char) : Nat :=
  let w := (lowerStr word).filter fun c => 'a' ≤ c && c ≤ 'z'
  if w = [] then 1
  else
    let n : Int := (runsOf isVowelY w).length
    let n := if endsSilentE w then n - 1 else n
    let n := n + countConsIon w
    (max 1 n).toNat

def isWordLetter (c : Char) : Bool := c.isAlpha || c = '\''

structure ReadabilityScore where
  flesch_ease : ℚ
  flesch_grade : ℚ
  gunning_fog : ℚ
  avg_sentence_len : ℚ
  avg_word_len : ℚ
  complex_word_pct : ℚ
  grade_label : String
  ease_label : String
deriving DecidableEq, Repr

/-- Python `round(x, 1)` (ties to even; the float is modelled by the exact
rational value, which is what every claim proved here depends on). -/
def roundHalfEven (q : ℚ) : ℤ :=
  let f := ⌊q⌋
  if q - f < 1/2 then f
  else if (1 : ℚ)/2 < q - f then f + 1
  else if f % 2 = 0 then f else f + 1

def round1 (q : ℚ) : ℚ := ((roundHalfEven (q * 10) : ℤ) : ℚ) / 10

/-- `compute_readability`. -/
def compute_readability (text : List Char) : ReadabilityScore :=
  let sentences := ((splitRunsOn isPunct text).map strip).filter (· ≠ [])
  let words_raw := runsOf isWordLetter text
  let num_sentences : ℚ := ((max sentences.length 1 : ℕ) : ℚ)
  let num_words : ℚ := ((max words_raw.length 1 : ℕ) : ℚ)
  let syllables := words_raw.map count_syllables
  let num_syllables : ℚ := ((syllables.sum : ℕ) : ℚ)
  let num_complex : ℚ := (((syllables.filter fun k => 3 ≤ k).length : ℕ) : ℚ)
  let avg_sentence_len := round1 (num_words / num_sentences)
  let avg_word_len := round1 ((((words_raw.map List.length).sum : ℕ) : ℚ) / num_words)
  let complex_pct := round1 (num_complex / num_words * 100)
  let ease0 := round1 (206835/1000 - 1015/1000 * (num_words / num_sentences)
    - 846/10 * (num_syllables / num_words))
  let flesch_ease := max 0 (min 100 ease0)
  let grade0 := round1 (39/100 * (num_words / num_sentences)
    + 118/10 * (num_syllables / num_words) - 1559/100)
  let flesch_grade := max 0 grade0
  let gunning_fog := round1 (4/10 * (avg_sentence_len + complex_pct))
  let labels :=
    if 80 ≤ flesch_ease then
      ("Very Easy", "Plain English — anyone can understand this.")
    else if 65 ≤ flesch_ease then
      ("Easy", "Fairly accessible language — most adults can follow it.")
    else if 50 ≤ flesch_ease then
      ("Moderate", "Requires some concentration — equivalent to a magazine article.")
    else if 35 ≤ flesch_ease then
      ("Difficult", "Academic-level language — requires careful reading.")
    else if 20 ≤ flesch_ease then
      ("Very Difficult", "Dense legal or technical writing — hard to follow for most people.")
    else
      ("Very Confusing", "Extremely complex — consider asking a professional to explain it.")
  { flesch_ease := flesch_ease, flesch_grade := flesch_grade, gunning_fog := gunning_fog,
    avg_sentence_len := avg_sentence_len, avg_word_len := avg_word_len,
    complex_word_pct := complex_pct, grade_label := labels.1, ease_label := labels.2 }

/-! ### Capture extraction helpers

Python's `m.group(i)` values feed only detail strings.  Each helper below is a
direct implementation of one specific capture pattern with Python's
leftmost-then-greedy semantics. -/

/-- Descending-`j` backtracking step for `(\d+).day`. -/
def tryDays (suf : List Char) : Nat → Option (List Char)
  | 0 => none
  | j + 1 =>
    match suf.drop (j + 1) with
    | x :: rest2 =>
      if x ≠ '\n' && (lowerStr rest2).take 3 = ['d', 'a', 'y'] then some (suf.take (j + 1))
      else tryDays suf j
    | [] => tryDays suf j

/-- `re.search(r'(\d+).day', text, re.IGNORECASE)` and its `group(1)`. -/
def findDayNum : List Char → Option (List Char)
  | [] => none
  | c :: rest =>
    if isDigitChar c then
      match tryDays (c :: rest) (1 + (rest.takeWhile isDigitChar).length) with
      | some d => some d
      | none => findDayNum rest
    else findDayNum rest

/-- `[A-Z][a-z]+` (maximal): returns the word and the rest. -/
def matchCapWord : List Char → Option (List Char × List Char)
  | [] => none
  | c :: rest =>
    if c.isUpper then
      let low := rest.takeWhile Char.isLower
      if low = [] then none
      else some (c :: low, rest.drop low.length)
    else none

/-- Group 2 of `laws? of (the )?([A-Z][a-z]+(?:\s[A-Z][a-z]+)?)`, starting right
after `laws? of `. -/
def matchJurTail (s : List Char) : Option (List Char) :=
  let tryAt : List Char → Option (List Char) := fun t =>
    match matchCapWord t with
    | some (w1, rest) =>
      match rest with
      | c :: rest2 =>
        if isWS c then
          match matchCapWord rest2 with
          | some (w2, _) => some (w1 ++ c :: w2)
          | none => some w1
        else some w1
      | [] => some w1
    | none => none
  if s.take 4 = "the ".data then
    match tryAt (s.drop 4) with
    | some g => some g
    | none => tryAt s
  else tryAt s

/-- `re.search(r'laws? of (the )?([A-Z][a-z]+(?:\s[A-Z][a-z]+)?)', text)`,
returning `group(2)`. -/
def findLawJur : List Char → Option (List Char)
  | [] => none
  | c :: rest =>
    let s := c :: rest
    let here : Option (List Char) :=
      if s.take 3 = "law".data then
        let t := s.drop 3
        let withS :=
          if t.take 5 = "s of ".data then matchJurTail (t.drop 5) else none
        match withS with
        | some g => some g
        | none => if t.take 4 = " of ".data then matchJurTail (t.drop 4) else none
      else none
    match here with
    | some g => some g
    | none => findLawJur rest

/-- `re.search(r'(\d+)\s*(month|year)', text, re.IGNORECASE)`: groups 1 and 2. -/
def findDur : List Char → Option (List Char × List Char)
  | [] => none
  | c :: rest =>
    if isDigitChar c then
      let digs := c :: rest.takeWhile isDigitChar
      let t := (rest.dropWhile isDigitChar).dropWhile isWS
      if (lowerStr t).take 5 = "month".data then some (digs, t.take 5)
      else if (lowerStr t).take 4 = "year".data then some (digs, t.take 4)
      else findDur rest
    else findDur rest

/-- One attempt of `(\d{2,3}(?:\.\d+)?)\s*%` with exactly `j` leading digits. -/
def tryPctAt (s : List Char) (j : Nat) : Option (List Char) :=
  if j ≤ (s.takeWhile isDigitChar).length then
    let g1 := s.take j
    let t := s.drop j
    let withFrac :=
      match t with
      | '.' :: t2 =>
        let fr := t2.takeWhile isDigitChar
        if fr = [] then none
        else if ((t2.drop fr.length).dropWhile isWS).take 1 = ['%'] then
          some (g1 ++ '.' :: fr)
        else none
      | _ => none
    match withFrac with
    | some g => some g
    | none => if (t.dropWhile isWS).take 1 = ['%'] then some g1 else none
  else none

/-- `re.search(r'(\d{2,3}(?:\.\d+)?)\s*%', text)`, returning `group(1)`. -/
def findPct : List Char → Option (List Char)
  | [] => none
  | c :: rest =>
    if isDigitChar c then
      match tryPctAt (c :: rest) 3 with
      | some g => some g
      | none =>
        match tryPctAt (c :: rest) 2 with
        | some g => some g
        | none => findPct rest
    else findPct rest

/-- `re.search(r'(\d+)\s*years? of age|must be (\d+)', text, re.IGNORECASE)`,
returning whichever of the two digit groups matched. -/
def findAge : List Char → Option (List Char)
  | [] => none
  | c :: rest =>
    let s := c :: rest
    let b1 : Option (List Char) :=
      if isDigitChar c then
        let digs := s.takeWhile isDigitChar
        let t := lowerStr ((s.drop digs.length).dropWhile isWS)
        if t.take 4 = "year".data then
          let t2 := t.drop 4
          if t2.take 8 = "s of age".data then some digs
          else if t2.take 7 = " of age".data then some digs
          else none
        else none
      else none
    match b1 with
    | some g => some g
    | none =>
      let b2 : Option (List Char) :=
        if (lowerStr s).take 8 = "must be ".data then
          let d := (s.drop 8).takeWhile isDigitChar
          if d = [] then none else some d
        else none
      match b2 with
      | some g => some g
      | none => findAge rest

/-! ### Key points, red flags, and the detector bank -/

structure KeyPoint where
  category : String
  icon : String
  title : String
  detail : String
  watch_out : Bool
  evidence : List String
deriving DecidableEq, Repr

structure RedFlag where
  message : String
  evidence : List String
deriving DecidableEq, Repr

/-- `_has` over plain (no-`\b`) patterns. -/
def hasR (text : List Char) (rs : List RE) : Bool :=
  hasPat text (rs.map pat)

/-- Evidence as strings, with the source's default `max_results = 2`. -/
def evid (text : List Char) (pats : List RE) : List String :=
  (find_evidence text pats 2).map List.asString

/-- `\w+` -/
def wplus : RE := plus (cls isWordChar)

/-- `\w*` -/
def wstar : RE := star (cls isWordChar)

/-- `\s+` -/
def wsplus : RE := plus (cls isWS)

/-- `\s*` -/
def wsstar : RE := star (cls isWS)

/-- `\d+` -/
def dplus : RE := plus (cls isDigitChar)

def alt3 (a b c : RE) : RE := RE.alt a (RE.alt b c)

def detect_payment (text : List Char) : Option KeyPoint :=
  if !hasR text [rlit "payment", rlit "billing", rlit "charge", rlit "fee", rlit "price"] then
    none
  else
    let c1 := hasR text [seqs [rlit "automat", wplus, RE.lit ' ',
      alt3 (rlit "charge") (rlit "bill") (rlit "renew")]]
    let c2 := hasR text [seqs [rlit "price", dotStar, rlit "change"],
      seqs [rlit "adjust", dotStar, rlit "price"], seqs [rlit "modify", dotStar, rlit "fee"]]
    let c3 := hasR text [seqs [rlit "late", dotStar, rlit "fee"],
      seqs [rlit "penalty", dotStar, rlit "payment"]]
    let parts :=
      (if c1 then ["Payments may be charged automatically."] else []) ++
      (if c2 then ["Prices can change — check for notice requirements."] else []) ++
      (if c3 then ["Late payment fees or penalties may apply."] else [])
    let watch := c1 || c2 || c3
    let detail := parts.headD "Document includes payment or billing terms."
    let ev := evid text [rlit "payment", rlit "billing", rlit "charge", rlit "fee"]
    some ⟨"Payment & Billing", "💳", "Payment Terms", detail, watch, ev⟩

def detect_renewal (text : List Char) : Option KeyPoint :=
  if !hasR text [seqs [rlit "auto", opt anyc, rlit "renew"], rlit "automatically renew",
      seqs [rlit "renew", dotStar, rlit "subscription"]] then
    none
  else
    let ev := evid text [seqs [rlit "auto", opt anyc, rlit "renew"], rlit "automatically renew"]
    some ⟨"Auto-Renewal", "🔄", "Automatic Renewal",
      "Your subscription may renew automatically. Check how far in advance you must cancel.",
      true, ev⟩

def detect_cancellation (text : List Char) : Option KeyPoint :=
  if !hasR text [rlit "cancel", rlit "terminat", seqs [rlit "end", dotStar, rlit "subscription"]] then
    none
  else
    let dw : String × Bool :=
      if hasR text [rlit "no refund", seqs [rlit "non", anyc, rlit "refundable"]] then
        ("Cancellations may not entitle you to a refund.", true)
      else if hasR text [seqs [rlit "cancel", dotStar, rlit "any time"], rlit "anytime"] then
        ("You can cancel at any time, but verify whether unused periods are refunded.", false)
      else if hasR text [seqs [rlit "notice", dotStar, rlit "cancel"],
          seqs [rlit "cancel", dotStar, rlit "notice"]] then
        ("A notice period may be required before cancellation takes effect.", true)
      else
        ("Cancellation terms are defined in this document.", false)
    let ev := evid text [seqs [rlit "cancel", wstar], seqs [rlit "terminat", wstar]]
    some ⟨"Cancellation", "❌", "Cancellation Policy", dw.1, dw.2, ev⟩

def detect_refund (text : List Char) : Option KeyPoint :=
  if !hasR text [rlit "refund", seqs [rlit "money", anyc, rlit "back"], rlit "chargeback"] then
    none
  else
    let ev := evid text [rlit "refund", seqs [rlit "money", anyc, rlit "back"]]
    if hasR text [rlit "no refund", seqs [rlit "non", anyc, rlit "refundable"],
        rlit "all sales final"] then
      some ⟨"Refunds", "💰", "Refund Policy",
        "No refunds are available — all purchases are final.", true, ev⟩
    else
      let detail :=
        match findDayNum text with
        | some d =>
          "A " ++ d.asString ++ "-day refund window is offered — verify the conditions."
        | none => "Refund terms are addressed."
      some ⟨"Refunds", "💰", "Refund Policy", detail, false, ev⟩

def detect_data_privacy (text : List Char) : Option KeyPoint :=
  if !hasR text [seqs [rlit "personal ", RE.alt (rlit "data") (rlit "information")],
      rlit "privacy", seqs [rlit "collect", dotStar, rlit "data"]] then
    none
  else
    let ev := evid text [seqs [rlit "personal ", RE.alt (rlit "data") (rlit "information")],
      seqs [rlit "collect", dotStar, rlit "data"], seqs [rlit "share", dotStar, rlit "data"]]
    if hasR text [seqs [rlit "sell", dotStar, rlit "data"],
        seqs [rlit "third", anyc, rlit "party", dotStar, rlit "sell"]] then
      some ⟨"Privacy & Data", "🔒", "Data & Privacy",
        "Your personal data may be sold to third parties.", true, ev⟩
    else if hasR text [seqs [rlit "share", dotStar, rlit "third", anyc, rlit "part"],
        seqs [rlit "third", anyc, rlit "part", dotStar, rlit "share"]] then
      some ⟨"Privacy & Data", "🔒", "Data & Privacy",
        "Your data may be shared with third parties — check which ones and why.", true, ev⟩
    else
      let detail :=
        if hasR text [rlit "gdpr", rlit "ccpa"] then
          "GDPR/CCPA-compliant data handling is referenced."
        else "The document describes how your personal data is handled."
      some ⟨"Privacy & Data", "🔒", "Data & Privacy", detail, false, ev⟩

def detect_cookies (text : List Char) : Option KeyPoint :=
  if !hasR text [rlit "cookie", rlit "tracking", rlit "web beacon", rlit "pixel"] then
    none
  else
    let ev := evid text [rlit "cookie", rlit "tracking", rlit "web beacon"]
    let watch := hasR text [seqs [rlit "third", anyc, rlit "party", dotStar, rlit "cookie"],
      seqs [rlit "advertis", dotStar, rlit "cookie"]]
    let detail :=
      if watch then "Third-party and advertising cookies may be placed on your device."
      else "Cookies and tracking technologies are used."
    some ⟨"Cookies & Tracking", "🍪", "Cookies & Tracking", detail, watch, ev⟩

def detect_liability (text : List Char) : Option KeyPoint :=
  if !hasR text [rlit "liability", rlit "liable", rlit "indemnif"] then
    none
  else
    let ev := evid text [rlit "liabilit", rlit "indemnif"]
    let dw : String × Bool :=
      if hasR text [rlit "unlimited liability"] then
        ("You may be exposed to unlimited financial liability.", true)
      else if hasR text [rlit "limitation of liability", rlit "not liable"] then
        ("The provider limits its own liability — you may have limited recourse for damages.",
          true)
      else ("The document includes liability clauses.", false)
    let dw :=
      if hasR text [rlit "indemnif"] then
        (dw.1 ++ " You may be required to indemnify the provider against third-party claims.",
          true)
      else dw
    some ⟨"Liability", "⚠️", "Liability & Indemnification", dw.1, dw.2, ev⟩

def detect_arbitration (text : List Char) : Option KeyPoint :=
  if !hasR text [rlit "arbitrat", rlit "class action", rlit "dispute resolution",
      rlit "jurisdiction"] then
    none
  else
    let ev := evid text [rlit "arbitrat", rlit "class action", rlit "dispute"]
    let dw : String × Bool :=
      if hasR text [rlit "binding arbitration"] then
        ("You must use binding arbitration to resolve disputes — you may not sue in court.",
          true)
      else ("Dispute resolution procedures are outlined.", false)
    let dw :=
      if hasR text [rlit "class action waiver"] then
        (dw.1 ++ " Class action lawsuits are waived.", true)
      else dw
    some ⟨"Dispute Resolution", "⚖️", "Disputes & Arbitration", dw.1, dw.2, ev⟩

def detect_ip (text : List Char) : Option KeyPoint :=
  if !hasR text [rlit "intellectual property", rlit "copyright", rlit "trademark",
      seqs [rlit "content", dotStar, rlit "license"], seqs [rlit "user", anyc, rlit "generated"]] then
    none
  else
    let ev := evid text [rlit "intellectual property", rlit "copyright",
      seqs [rlit "license", dotStar, rlit "content"]]
    let watch := hasR text [seqs [rlit "grant", dotStar, rlit "license", dotStar, rlit "content"],
      seqs [rlit "royalty", anyc, rlit "free"], seqs [rlit "perpetual", dotStar, rlit "license"]]
    let detail :=
      if watch then "You grant the platform a broad license to use your content."
      else "Intellectual property ownership is addressed."
    some ⟨"Intellectual Property", "©️", "Content & IP Rights", detail, watch, ev⟩

def detect_termination (text : List Char) : Option KeyPoint :=
  if !hasR text [seqs [rlit "terminat", dotStar, rlit "account"],
      seqs [rlit "suspend", dotStar, rlit "account"],
      seqs [rlit "sole", dotStar, rlit "discretion"]] then
    none
  else
    let ev := evid text [seqs [rlit "terminat", dotStar, rlit "account"],
      seqs [rlit "suspend", dotStar, rlit "account"],
      seqs [rlit "sole", dotStar, rlit "discretion"]]
    let dw : String × Bool :=
      if hasR text [seqs [rlit "without ", opt (rlit "prior "), rlit "notice"]] &&
          hasR text [rlit "terminat"] then
        ("Your account may be terminated without prior notice at their discretion.", true)
      else ("The provider can terminate or suspend accounts under defined conditions.", false)
    some ⟨"Account Termination", "🚫", "Account Suspension / Termination", dw.1, dw.2, ev⟩

def detect_changes (text : List Char) : Option KeyPoint :=
  if !hasR text [seqs [rlit "modif", dotStar, rlit "terms"],
      seqs [rlit "change", dotStar, rlit "terms"],
      seqs [rlit "amend", dotStar, rlit "agreement"],
      seqs [rlit "update", dotStar, rlit "terms"]] then
    none
  else
    let ev := evid text [seqs [rlit "modif", dotStar, rlit "terms"],
      seqs [rlit "change", dotStar, rlit "terms"],
      seqs [rlit "amend", dotStar, rlit "agreement"]]
    let watch := hasR text [seqs [rlit "without", dotStar, rlit "notice"],
      seqs [rlit "at any time", dotStar, rlit "modif"]]
    let detail :=
      if watch then
        "Terms can be changed at any time without notice — continued use implies acceptance."
      else "The provider can update these terms over time."
    some ⟨"Terms Changes", "📝", "Right to Modify Terms", detail, watch, ev⟩

def detect_governing_law (text : List Char) : Option KeyPoint :=
  if !hasR text [rlit "governing law", rlit "jurisdiction", rlit "laws of the state"] then
    none
  else
    let j := ((findLawJur text).map List.asString).getD "a specific jurisdiction"
    let ev := evid text [rlit "governing law", rlit "jurisdiction"]
    some ⟨"Governing Law", "🏛️", "Applicable Law & Jurisdiction",
      "This agreement is governed by the laws of " ++ j ++
        ". Disputes may need to be resolved there.", false, ev⟩

def detect_non_compete (text : List Char) : Option KeyPoint :=
  if !hasR text [seqs [rlit "non", anyc, rlit "compete"], seqs [rlit "non", anyc, rlit "solicit"],
      rlit "restraint of trade"] then
    none
  else
    let detail :=
      "A non-compete or non-solicitation clause is present — you may be restricted from working for competitors."
    let detail :=
      match findDur text with
      | some du =>
        detail ++ " The restriction period appears to be " ++ du.1.asString ++ " " ++
          du.2.asString ++ "(s)."
      | none => detail
    let ev := evid text [seqs [rlit "non", anyc, rlit "compete"],
      seqs [rlit "non", anyc, rlit "solicit"], rlit "restraint of trade"]
    some ⟨"Non-Compete", "🚷", "Non-Compete Clause", detail, true, ev⟩

def detect_loan_default (text : List Char) : Option KeyPoint :=
  if !hasR text [rlit "default", rlit "acceleration", rlit "foreclosure", rlit "repossess"] then
    none
  else
    let ev := evid text [rlit "default", rlit "foreclosure", rlit "repossess",
      rlit "acceleration"]
    some ⟨"Default & Consequences", "💥", "Default Provisions",
      "The document outlines consequences for default — this may include acceleration of full repayment, asset seizure, or foreclosure.",
      true, ev⟩

def detect_health_data (text : List Char) : Option KeyPoint :=
  if !hasPat text [pat (rlit "hipaa"), pat (seqs [rlit "health", dotStar, rlit "data"]),
      pat (seqs [rlit "medical", dotStar, rlit "record"]), pat (rlit "protected health"),
      ⟨true, rlit "phi", true⟩] then
    none
  else
    let ev := evid text [rlit "hipaa", seqs [rlit "health", dotStar, rlit "data"],
      seqs [rlit "medical", dotStar, rlit "record"]]
    let watch := hasR text [seqs [rlit "share", dotStar, rlit "health"],
      seqs [rlit "disclose", dotStar, rlit "health"], seqs [rlit "third", dotStar, rlit "health"]]
    let detail :=
      if watch then "Your health data may be shared with third parties — verify scope and purpose."
      else "Health data is involved. HIPAA or equivalent protections may apply."
    some ⟨"Health Data", "🏥", "Health & Medical Data", detail, watch, ev⟩

def detect_telecom (text : List Char) : Option KeyPoint :=
  if !hasR text [rlit "roaming", rlit "data cap", rlit "fair use", rlit "throttl",
      rlit "network management"] then
    none
  else
    let ev := evid text [rlit "roaming", rlit "throttl", rlit "data cap"]
    let dw : String × Bool :=
      if hasR text [rlit "throttl", seqs [rlit "speed", dotStar, rlit "reduc"]] then
        ("Your data speeds may be throttled after exceeding a usage threshold.", true)
      else ("Network usage policies are defined.", false)
    let dw :=
      if hasR text [rlit "roaming"] then
        (dw.1 ++ " Roaming charges may apply outside your home network.", true)
      else dw
    some ⟨"Network & Roaming", "📡", "Data Limits & Roaming", dw.1, dw.2, ev⟩

def detect_security_deposit (text : List Char) : Option KeyPoint :=
  if !hasPat text [pat (rlit "security deposit"), ⟨false, rlit "bond", true⟩,
      pat (seqs [rlit "damage", dotStar, rlit "deposit"])] then
    none
  else
    let ev := evid text [rlit "security deposit", rlit "bond", rlit "deposit"]
    some ⟨"Security Deposit", "🏦", "Security Deposit",
      "A security deposit is required. Review the conditions under which it can be withheld or deducted.",
      true, ev⟩

def detect_force_majeure (text : List Char) : Option KeyPoint :=
  if !hasR text [rlit "force majeure", rlit "act of god", seqs [rlit "beyond", dotStar, rlit "control"],
      rlit "unforeseeable"] then
    none
  else
    let ev := evid text [rlit "force majeure", rlit "act of god",
      seqs [rlit "beyond", dotStar, rlit "control"]]
    some ⟨"Force Majeure", "🌪️", "Force Majeure",
      "A force majeure clause limits the provider's obligations during extraordinary events (natural disasters, pandemics, etc.).",
      false, ev⟩

def detect_sla (text : List Char) : Option KeyPoint :=
  if !hasPat text [⟨true, rlit "sla", true⟩, pat (rlit "service level"), pat (rlit "uptime"),
      pat (seqs [rlit "availability", dotStar, rlit "%"]), pat (rlit "downtime")] then
    none
  else
    let ev := evid text [rlit "uptime", rlit "service level", rlit "downtime"]
    let uptime :=
      match findPct text with
      | some p => p.asString ++ "%"
      | none => "a defined"
    let watch := hasR text [rlit "no credit", seqs [rlit "sole remedy", dotStar, rlit "credit"],
      seqs [rlit "not liable", dotStar, rlit "downtime"]]
    let detail := "An SLA guarantees " ++ uptime ++ " uptime."
    let detail :=
      if watch then
        detail ++ " However, compensation for downtime may be limited to service credits only."
      else detail
    some ⟨"Service Level", "📊", "Uptime & SLA Guarantee", detail, watch, ev⟩

def detect_age_restriction (text : List Char) : Option KeyPoint :=
  if !hasR text [seqs [dplus, wsstar, rlit "year", opt (RE.lit 's'), rlit " of age"],
      seqs [rlit "must be", wsstar, dplus],
      seqs [rlit "age", dotStar, rlit "requirement"],
      seqs [rlit "minor", opt (RE.lit 's')]] then
    none
  else
    let age := ((findAge text).map List.asString).getD "a minimum"
    let ev := evid text [seqs [rlit "year", opt (RE.lit 's'), rlit " of age"],
      seqs [rlit "must be ", dplus], rlit "minor"]
    some ⟨"Age Restriction", "🔞", "Age Requirement",
      "Users must be at least " ++ age ++
        " years old. Parental consent may be required for minors.", false, ev⟩

def DETECTORS : List (List Char → Option KeyPoint) := [
  detect_payment, detect_renewal, detect_cancellation, detect_refund,
  detect_data_privacy, detect_cookies, detect_liability, detect_arbitration,
  detect_ip, detect_termination, detect_changes, detect_governing_law,
  detect_non_compete, detect_loan_default, detect_health_data,
  detect_telecom, detect_security_deposit, detect_force_majeure,
  detect_sla, detect_age_restriction]

/-! ### Red-flag detector -/

/-- `RED_FLAG_RULES`: (trigger, message, evidence patterns). -/
def RED_FLAG_RULES : List (RE × String × List RE) := [
  (seqs [rlit "sell", dotStar, rlit "personal ", RE.alt (rlit "data") (rlit "information")],
    "May sell your personal data to third parties.",
    [seqs [rlit "sell", dotStar, rlit "personal"], seqs [rlit "personal", dotStar, rlit "sold"]]),
  (seqs [rlit "share", dotStar, rlit "with", dotStar, rlit "third", anyc, rlit "part"],
    "Your data may be shared with unspecified third parties.",
    [seqs [rlit "share", dotStar, rlit "third"],
      seqs [rlit "third", anyc, rlit "part", dotStar, rlit "receiv"]]),
  (seqs [rlit "track", dotStar, rlit "location"],
    "Your location data may be tracked.",
    [seqs [rlit "track", dotStar, rlit "location"],
      seqs [rlit "location", dotStar, rlit "track"]]),
  (seqs [rlit "monitor", dotStar, rlit "communication"],
    "Provider may monitor your private communications.",
    [seqs [rlit "monitor", dotStar, rlit "communicat"]]),
  (rlit "class action waiver",
    "Waives your right to participate in class action lawsuits.",
    [rlit "class action"]),
  (rlit "binding arbitration",
    "Requires binding arbitration — limits your ability to sue.",
    [rlit "binding arbitration", rlit "arbitrat"]),
  (seqs [rlit "waive", dotStar, rlit "right"],
    "Contains clauses where you waive important legal rights.",
    [seqs [rlit "waive", dotStar, rlit "right"], seqs [rlit "right", dotStar, rlit "waiv"]]),
  (seqs [rlit "irrevocable", dotStar, rlit "licen"],
    "Grants an irrevocable license over your content.",
    [seqs [rlit "irrevocable", dotStar, rlit "licen"]]),
  (seqs [rlit "perpetual", dotStar, rlit "licen", dotStar, rlit "royalty", anyc, rlit "free"],
    "Grants unlimited, perpetual, royalty-free use of your content.",
    [seqs [rlit "perpetual", dotStar, rlit "licen"], seqs [rlit "royalty", anyc, rlit "free"]]),
  (alt3 (rlit "no refund") (seqs [rlit "non", anyc, rlit "refundable"]) (rlit "all sales final"),
    "No refunds under any circumstances.",
    [rlit "no refund", seqs [rlit "non", anyc, rlit "refundable"]]),
  (RE.alt (seqs [rlit "accelerat", dotStar, rlit "repayment"])
      (seqs [rlit "full", dotStar, rlit "amount", dotStar, rlit "due"]),
    "Default may trigger immediate repayment of full balance.",
    [rlit "accelerat", seqs [rlit "full", dotStar, rlit "amount", dotStar, rlit "due"]]),
  (seqs [rlit "wage", dotStar, rlit "garnish"],
    "Wages may be garnished in case of default.",
    [seqs [rlit "wage", dotStar, rlit "garnish"]]),
  (seqs [alt3 (rlit "modif") (rlit "change") (rlit "amend"), dotStar, rlit "without",
      dotStar, rlit "notice"],
    "Terms can be changed without notifying you.",
    [seqs [rlit "without", dotStar, rlit "notice"], seqs [rlit "change", dotStar, rlit "terms"]]),
  (seqs [rlit "terminat", dotStar, rlit "without ", opt (rlit "prior "), rlit "notice"],
    "Account can be terminated without any notice.",
    [seqs [rlit "terminat", dotStar, rlit "without", dotStar, rlit "notice"]]),
  (rlit "at our sole discretion",
    "Provider has unchecked discretion on key decisions.",
    [rlit "sole discretion"]),
  (seqs [rlit "unilateral", dotStar, rlit "modif"],
    "Provider can unilaterally modify the agreement.",
    [rlit "unilateral"]),
  (seqs [rlit "not responsible", dotStar, rlit "any ", RE.alt (rlit "loss") (rlit "damage")],
    "Provider disclaims all responsibility for losses.",
    [seqs [rlit "not responsible", dotStar, rlit "loss"],
      seqs [rlit "not liable", dotStar, rlit "damage"]]),
  (seqs [rlit "indemnif", dotStar, rlit "attorney", dotStar, rlit "fees"],
    "You may be liable for the provider's legal fees.",
    [seqs [rlit "indemnif", dotStar, rlit "attorney"],
      seqs [rlit "attorney", dotStar, rlit "fees"]]),
  (rlit "foreclosure",
    "Non-payment may result in foreclosure of your property.",
    [rlit "foreclosure"]),
  (seqs [rlit "non", anyc, rlit "compete", dotStar, dplus, wsstar, rlit "year"],
    "Non-compete clause restricts you for a multi-year period.",
    [seqs [rlit "non", anyc, rlit "compete", dotStar, rlit "year"]]),
  (seqs [rlit "cross", anyc, rlit "default"],
    "Default on one obligation may trigger default on all.",
    [seqs [rlit "cross", anyc, rlit "default"]]),
  (rlit "repossess",
    "Assets may be repossessed in case of default.",
    [rlit "repossess"])]

/-- The `detect_red_flags` loop, with the already-emitted-message set. -/
def rfGo (text : List Char) : List (RE × String × List RE) → List String → List RedFlag
  | [], _ => []
  | (trig, msg, evs) :: rest, seen =>
    if rsearch trig (lowerStr text) && !(seen.contains msg) then
      ⟨msg, evid text evs⟩ :: rfGo text rest (msg :: seen)
    else rfGo text rest seen

def detect_red_flags (text : List Char) : List RedFlag :=
  rfGo text RED_FLAG_RULES []

/-! ### Before-signing checklist -/

/-- The conditional items of `build_checklist`, in rule order. -/
def checklistBase (text : List Char) (risk_level : String) : List String :=
  (if hasR text [seqs [rlit "auto", opt anyc, rlit "renew"], rlit "automatically renew"] then
    ["Confirm the auto-renewal date and how to cancel before it triggers."] else []) ++
  (if hasR text [rlit "binding arbitration"] then
    ["Understand that by signing you likely give up your right to sue in court."] else []) ++
  (if hasR text [rlit "personal data", seqs [rlit "data", dotStar, rlit "collect"]] then
    ["Review exactly what personal data is collected and who it is shared with."] else []) ++
  (if hasR text [rlit "no refund", seqs [rlit "non", anyc, rlit "refundable"]] then
    ["Note there are no refunds — be certain before committing."] else []) ++
  (if hasR text [rlit "foreclosure", rlit "repossess", rlit "collateral"] then
    ["Understand what assets are at risk if you default on your obligations."] else []) ++
  (if hasR text [seqs [rlit "non", anyc, rlit "compete"], seqs [rlit "non", anyc, rlit "solicit"]] then
    ["Review the non-compete clause — it may restrict future employment."] else []) ++
  (if hasR text [rlit "hipaa", seqs [rlit "health", dotStar, rlit "data"],
      seqs [rlit "medical", dotStar, rlit "record"]] then
    ["Verify how your health data is stored, protected, and who can access it."] else []) ++
  (if hasR text [rlit "roaming", rlit "data cap", rlit "throttl"] then
    ["Check data caps, throttling thresholds, and roaming charges carefully."] else []) ++
  (if hasR text [rlit "governing law", rlit "jurisdiction"] then
    match findLawJur text with
    | some g =>
      ["Disputes will be handled under " ++ g.asString ++ " law — check if this affects you."]
    | none => []
  else []) ++
  (if hasR text [rlit "indemnif"] then
    ["Understand the indemnification clause — you may be financially responsible for third-party claims."]
  else []) ++
  (if hasR text [rlit "intellectual property", seqs [rlit "license", dotStar, rlit "content"]] then
    ["Check what rights you grant to the platform over content you upload."] else []) ++
  (if risk_level = "High" then
    ["Given the high risk level, consider having a legal professional review this document."]
  else [])

/-- `build_checklist(text, doc_type, risk_level)`.  (`doc_type` is accepted but,
as in the source, never read.) -/
def build_checklist (text : List Char) (_doc_type risk_level : String) : List String :=
  let items := checklistBase text risk_level
  let items :=
    if items = [] then
      ["Read the full document carefully before agreeing.",
        "Check for any trial periods, fees, or commitments involved."]
    else items
  (items ++ ["Keep a copy of this document for your records once signed."]).take 7

/-! ### Document-type detection -/

/-- Plain pattern (no `\b`). -/
def pr (s : String) : Pat := pat (rlit s)

/-- `\b...\b`-wrapped literal. -/
def pb (s : String) : Pat := ⟨true, rlit s, true⟩

def DOC_TYPE_RULES : List (String × List Pat) := [
  ("Insurance Policy",
    [pat (seqs [rlit "insur", wplus]), pr "premium", pr "claim", pr "policyholder",
      pr "deductible", pr "coverage", pr "beneficiar", pr "underwr", pr "actuar"]),
  ("Loan / Credit Agreement",
    [pb "loan", pr "borrow", pb "lender", pb "principal", pr "interest rate",
      pr "repayment", pb "default", pr "collateral",
      pat (seqs [rlit "credit", wsplus, rlit "facilit"])]),
  ("Mortgage Agreement",
    [pr "mortgage", pb "property", pb "deed", pr "foreclosure", pr "escrow",
      pb "lien", pr "amortiz", pr "real estate"]),
  ("Investment / Securities",
    [pr "securities", pat (seqs [rlit "invest", wplus]), pr "portfolio", pr "dividend",
      pb "share", pb "fund", pb "broker", pr "fiduciary",
      pat (seqs [rlit "risk", wsplus, rlit "disclosur"])]),
  ("Lease / Rental Agreement",
    [pb "lease", pr "tenancy", pr "landlord", pb "tenant", pb "rent",
      pr "premises", pr "eviction", pr "security deposit", pr "notice to vacate"]),
  ("Employment Contract",
    [pat (seqs [rlit "employ", wplus]), pb "salary", pr "termination",
      pat (seqs [rlit "non", anyc, rlit "compete"]), pr "confidentialit", pr "severance",
      pat (seqs [rlit "probation", wplus])]),
  ("SaaS / Software License",
    [pat (seqs [rlit "software", anyc, rlit "as", anyc, rlit "a", anyc, rlit "service"]),
      pb "saas", pat (seqs [rlit "license", wsplus, rlit "grant"]),
      pat (seqs [rlit "api", wsplus, rlit "access"]), pb "seat",
      pat (seqs [rlit "end", anyc, rlit "user", wsplus, rlit "licen"])]),
  ("Mobile App Terms",
    [pr "mobile app", pr "app store", pr "google play", pr "push notification",
      pat (seqs [rlit "in", anyc, rlit "app purchase"]),
      pat (seqs [rlit "device", wsplus, rlit "permiss"])]),
  ("Cloud Services Agreement",
    [pb "cloud", pr "infrastructure", pb "uptime", pb "sla", pr "service level",
      pr "data center", pat (seqs [rlit "storage", wsplus, rlit "capacit"])]),
  ("Open Source License",
    [pat (seqs [rlit "open", anyc, rlit "source"]), pb "gnu", pr "mit license",
      pr "apache license", pr "redistribute", pr "copyleft", pr "permissive"]),
  ("E-Commerce / Shopping",
    [pr "shopping cart", pr "refund policy", pr "return policy",
      pb "seller", pb "buyer", pr "checkout", pr "order confirmation"]),
  ("Subscription Service",
    [pr "subscription", pr "monthly plan", pr "annual plan", pr "free trial",
      pb "upgrade", pb "downgrade", pr "billing cycle"]),
  ("Streaming / Media",
    [pat (seqs [rlit "stream", wplus]), pr "content library", pb "watch", pr "episode",
      pr "playlist", pat (seqs [rlit "download", dotStar, rlit "offline"]),
      pr "simultaneous stream"]),
  ("Travel & Hospitality",
    [pr "booking", pr "reservation", pat (seqs [rlit "check", anyc, rlit "in"]),
      pat (seqs [rlit "check", anyc, rlit "out"]), pr "cancellation policy",
      pb "hotel", pb "flight", pr "itinerary", pr "passenger",
      pat (seqs [rlit "travel", opt (RE.lit 'l'), wplus])]),
  ("Telecommunications",
    [pr "telecom", pr "mobile plan", pr "data plan", pr "roaming",
      pat (seqs [rlit "network", wsplus, rlit "coverage"]), pr "sim card",
      pb "carrier", pr "broadband"]),
  ("Healthcare / Medical",
    [pr "patient", pr "healthcare", pr "medical record", pb "hipaa",
      pr "treatment", pr "physician", pr "diagnos", pr "health data", pr "telehealth"]),
  ("Financial Advisory",
    [pr "financial advice", pb "advisor", pr "wealth management",
      pr "asset management", pat (seqs [rlit "fee", anyc, rlit "based"]),
      pb "commission", pr "suitability"]),
  ("Privacy Policy",
    [pr "personal data", pb "gdpr", pr "data controller", pb "cookie",
      pr "data subject", pb "ccpa", pr "right to erasure", pr "data retention"]),
  ("Social Media Platform",
    [pb "post", pb "profile", pr "followers", pr "content moderation",
      pr "community guideline", pb "hashtag", pb "feed"]),
  ("Website Terms of Use",
    [pb "website", pb "site", pr "user account",
      pat (seqs [rlit "terms of ", RE.alt (rlit "use") (rlit "service")]),
      pr "acceptable use", pr "hyperlink", pr "web content"])]

/-- All end offsets at which `r` matches a prefix of `cs`, as offsets from the
given start index. -/
def matchEndsGo (r : RE) (cs : List Char) (i : Nat) : List Nat :=
  match cs with
  | [] => if r.nullable then [i] else []
  | c :: cs' => (if r.nullable then [i] else []) ++ matchEndsGo (r.deriv c) cs' (i + 1)

/-- The longest match of `p` starting at the head of `s` (with `prev` the
character before the start).  Models the length of the match the `re.findall`
scan takes; for the repository's patterns the greedy match is the longest one. -/
def longestMatchAt (p : Pat) (prev : Option Char) (s : List Char) : Option Nat :=
  if p.lb && !wbAt prev s.head? then none
  else
    let ok := (matchEndsGo p.re s 0).filter fun n =>
      !p.rb || wbAt (if n = 0 then prev else (s.take n).getLast?) (s.drop n).head?
    match ok with
    | [] => none
    | _ => some (ok.foldl max 0)

/-- The `len(re.findall(p, t))` scan: repeatedly take the next match, resuming
after its end (one character further for an empty match). -/
def countFrom (p : Pat) (prev : Option Char) (s : List Char) : Nat :=
  match s with
  | [] => match longestMatchAt p prev [] with | some _ => 1 | none => 0
  | c :: rest =>
    match longestMatchAt p prev s with
    | some 0 => 1 + countFrom p (some c) rest
    | some (n + 1) =>
      let consumed := (c :: rest).take (n + 1)
      1 + countFrom p (match consumed.getLast? with | some d => some d | none => prev)
        ((c :: rest).drop (n + 1))
    | none => countFrom p (some c) rest
termination_by s.length
decreasing_by
  all_goals simp only [List.length_cons, List.length_drop]
  all_goals omega

def countMatches (p : Pat) (s : List Char) : Nat := countFrom p none s

/-- `detect_document_type`. -/
def detect_document_type (text : List Char) : String :=
  let t := lowerStr text
  let scores := DOC_TYPE_RULES.map fun rule =>
    (rule.1, (rule.2.map fun p => countMatches p t).sum)
  let pos := scores.filter fun x => 0 < x.2
  match pos with
  | [] => "General Terms & Conditions"
  | _ =>
    let m := (pos.map Prod.snd).foldl max 0
    (((pos.filter fun x => x.2 = m).head?).map Prod.fst).getD "General Terms & Conditions"

/-! ### Summary templates -/

def SUMMARY_TEMPLATES : List (String × String) := [
  ("Insurance Policy", "This is an insurance policy outlining coverage terms, exclusions, premiums, and claim procedures. It defines your rights as a policyholder and what events or losses are covered."),
  ("Loan / Credit Agreement", "This is a loan or credit agreement governing borrowed funds, repayment schedules, interest rates, and consequences of default."),
  ("Mortgage Agreement", "This is a mortgage agreement securing a loan against real property. It covers repayment terms, interest, default consequences including foreclosure rights."),
  ("Investment / Securities", "This is an investment or securities agreement covering risk disclosures, fees, fiduciary obligations, and the management of your assets or portfolio."),
  ("Lease / Rental Agreement", "This is a lease or rental agreement outlining tenancy terms, rent obligations, maintenance responsibilities, and conditions for eviction."),
  ("Employment Contract", "This is an employment agreement covering compensation, confidentiality, intellectual property, non-compete obligations, and termination conditions."),
  ("SaaS / Software License", "This is a software or SaaS subscription agreement governing usage rights, billing, and the provider's ability to modify or terminate the service."),
  ("Mobile App Terms", "These are Terms of Service for a mobile application covering acceptable use, in-app purchases, data handling, and your rights as a user."),
  ("Cloud Services Agreement", "This is a cloud services agreement covering infrastructure access, uptime guarantees (SLAs), data ownership, and service availability."),
  ("Open Source License", "This is an open-source license governing how the software can be used, modified, and redistributed."),
  ("E-Commerce / Shopping", "This is an e-commerce agreement covering purchases, returns, refunds, and seller/buyer obligations on the platform."),
  ("Subscription Service", "This is a subscription agreement governing recurring billing, plan features, upgrade/downgrade rights, and cancellation."),
  ("Streaming / Media", "This is a streaming or media service agreement covering content access, billing, simultaneous streams, and usage restrictions."),
  ("Travel & Hospitality", "This is a travel or hospitality agreement covering bookings, cancellations, refunds, passenger obligations, and liability for travel disruptions."),
  ("Telecommunications", "This is a telecommunications agreement covering your mobile or broadband plan, data limits, roaming charges, and network usage policies."),
  ("Healthcare / Medical", "This is a healthcare or medical services agreement covering patient rights, data privacy (HIPAA), treatment consent, and billing."),
  ("Financial Advisory", "This is a financial advisory agreement covering the scope of advice, fee structures, fiduciary duty, conflicts of interest, and liability."),
  ("Privacy Policy", "This is a Privacy Policy describing what personal data is collected, how it is used, who it is shared with, and your rights regarding that data."),
  ("Social Media Platform", "These are Terms of Service for a social media platform covering content rights, community standards, data use, and account management."),
  ("Website Terms of Use", "These are Website Terms of Use governing how you may access and interact with the site, including user accounts, content, and liability."),
  ("General Terms & Conditions", "This is a general Terms & Conditions document outlining the rules, rights, and obligations between you and the provider.")]

/-- `text.split()`: maximal non-whitespace runs. -/
def wsWords (text : List Char) : List (List Char) := runsOf (fun c => !isWS c) text

/-- `build_summary`. -/
def build_summary (doc_type : String) (text : List Char) : String :=
  let base := (SUMMARY_TEMPLATES.lookup doc_type).getD
    ((SUMMARY_TEMPLATES.lookup "General Terms & Conditions").getD "")
  if 3000 < (wsWords text).length then
    base ++ " The document is comprehensive — take time to read key sections carefully."
  else base

/-! ### The analysis orchestrator -/

structure AnalysisResult where
  document_type : String
  document_summary : String
  risk_level : String
  risk_reason : String
  risk_score : Nat
  readability : Option ReadabilityScore
  key_points : List KeyPoint
  red_flags : List RedFlag
  before_signing : List String
  word_count : Nat
  char_count : Nat
deriving DecidableEq, Repr

/-- `analyze(text)`: `ValueError("Empty document.")` becomes `Except.error`. -/
def analyze (text : List Char) : Except String AnalysisResult :=
  let t := clean text
  if t = [] then .error "Empty document."
  else
    let doc_type := detect_document_type t
    let rr := compute_risk t
    .ok {
      document_type := doc_type,
      document_summary := build_summary doc_type t,
      risk_level := rr.1,
      risk_reason := rr.2.1,
      risk_score := rr.2.2,
      readability := some (compute_readability t),
      key_points := DETECTORS.filterMap fun d => d t,
      red_flags := detect_red_flags t,
      before_signing := build_checklist t doc_type rr.1,
      word_count := (wsWords t).length,
      char_count := t.length }

/-! ### Serialization (`to_dict` / `from_dict`)

A Python plain value: strings, ints, floats (exact rationals), bools, lists and
(insertion-ordered) dicts. -/

inductive PyVal where
  | str (s : String)
  | int (n : Nat)
  | rat (q : ℚ)
  | bool (b : Bool)
  | list (xs : List PyVal)
  | dict (fields : List (String × PyVal))

namespace PyVal

def get? (v : PyVal) (k : String) : Option PyVal :=
  match v with
  | .dict fs => fs.lookup k
  | _ => none

def asStr : PyVal → Option String
  | .str s => some s
  | _ => none

def asInt : PyVal → Option Nat
  | .int n => some n
  | _ => none

def asRat : PyVal → Option ℚ
  | .rat q => some q
  | _ => none

def asBool : PyVal → Option Bool
  | .bool b => some b
  | _ => none

def asList : PyVal → Option (List PyVal)
  | .list xs => some xs
  | _ => none

def asStrList : PyVal → Option (List String)
  | .list xs => xs.mapM asStr
  | _ => none

end PyVal

def kpToDict (kp : KeyPoint) : PyVal :=
  .dict [("category", .str kp.category), ("icon", .str kp.icon), ("title", .str kp.title),
    ("detail", .str kp.detail), ("watch_out", .bool kp.watch_out),
    ("evidence", .list (kp.evidence.map PyVal.str))]

def rfToDict (rf : RedFlag) : PyVal :=
  .dict [("message", .str rf.message), ("evidence", .list (rf.evidence.map PyVal.str))]

def rdToDict (r : ReadabilityScore) : PyVal :=
  .dict [("flesch_ease", .rat r.flesch_ease), ("flesch_grade", .rat r.flesch_grade),
    ("gunning_fog", .rat r.gunning_fog), ("avg_sentence_len", .rat r.avg_sentence_len),
    ("avg_word_len", .rat r.avg_word_len), ("complex_word_pct", .rat r.complex_word_pct),
    ("grade_label", .str r.grade_label), ("ease_label", .str r.ease_label)]

/-- `AnalysisResult.to_dict`; the `readability` key is present only when the
field is. -/
def to_dict (r : AnalysisResult) : PyVal :=
  .dict ([("document_type", .str r.document_type),
    ("document_summary", .str r.document_summary),
    ("risk_level", .str r.risk_level),
    ("risk_reason", .str r.risk_reason),
    ("risk_score", .int r.risk_score),
    ("before_signing", .list (r.before_signing.map PyVal.str)),
    ("word_count", .int r.word_count),
    ("char_count", .int r.char_count),
    ("key_points", .list (r.key_points.map kpToDict)),
    ("red_flags", .list (r.red_flags.map rfToDict))] ++
    (match r.readability with
     | some rd => [("readability", rdToDict rd)]
     | none => []))

/-- `KeyPoint(**kp)`: read the six fields `to_dict` emits. -/
def kpFromDict (v : PyVal) : Option KeyPoint := do
  let category ← (v.get? "category").bind PyVal.asStr
  let icon ← (v.get? "icon").bind PyVal.asStr
  let title ← (v.get? "title").bind PyVal.asStr
  let detail ← (v.get? "detail").bind PyVal.asStr
  let watch_out ← (v.get? "watch_out").bind PyVal.asBool
  let evidence ← (v.get? "evidence").bind PyVal.asStrList
  pure ⟨category, icon, title, detail, watch_out, evidence⟩

def rfFromDict (v : PyVal) : Option RedFlag := do
  let message ← (v.get? "message").bind PyVal.asStr
  let evidence ← (v.get? "evidence").bind PyVal.asStrList
  pure ⟨message, evidence⟩

def rdFromDict (v : PyVal) : Option ReadabilityScore := do
  let flesch_ease ← (v.get? "flesch_ease").bind PyVal.asRat
  let flesch_grade ← (v.get? "flesch_grade").bind PyVal.asRat
  let gunning_fog ← (v.get? "gunning_fog").bind PyVal.asRat
  let avg_sentence_len ← (v.get? "avg_sentence_len").bind PyVal.asRat
  let avg_word_len ← (v.get? "avg_word_len").bind PyVal.asRat
  let complex_word_pct ← (v.get? "complex_word_pct").bind PyVal.asRat
  let grade_label ← (v.get? "grade_label").bind PyVal.asStr
  let ease_label ← (v.get? "ease_label").bind PyVal.asStr
  pure ⟨flesch_ease, flesch_grade, gunning_fog, avg_sentence_len, avg_word_len,
    complex_word_pct, grade_label, ease_label⟩

/-- `AnalysisResult.from_dict`. -/
def from_dict (v : PyVal) : Option AnalysisResult := do
  let document_type ← (v.get? "document_type").bind PyVal.asStr
  let document_summary ← (v.get? "document_summary").bind PyVal.asStr
  let risk_level ← (v.get? "risk_level").bind PyVal.asStr
  let risk_reason ← (v.get? "risk_reason").bind PyVal.asStr
  let risk_score ← (v.get? "risk_score").bind PyVal.asInt
  let before_signing ← (v.get? "before_signing").bind PyVal.asStrList
  let word_count ← (v.get? "word_count").bind PyVal.asInt
  let char_count ← (v.get? "char_count").bind PyVal.asInt
  let kps ← (v.get? "key_points").bind PyVal.asList
  let key_points ← kps.mapM kpFromDict
  let rfs ← (v.get? "red_flags").bind PyVal.asList
  let red_flags ← rfs.mapM rfFromDict
  let base : AnalysisResult :=
    ⟨document_type, document_summary, risk_level, risk_reason, risk_score, none,
      key_points, red_flags, before_signing, word_count, char_count⟩
  match v.get? "readability" with
  | some rv => do
    let rd ← rdFromDict rv
    pure { base with readability := some rd }
  | none => pure base

/-! ### Multi-document comparison (`multi_compare.py`) -/

structure DocRanking where
  rank : Nat
  name : String
  result : AnalysisResult
  total_score : ℚ
  watch_count : Nat
  strengths : List String
  weaknesses : List String
deriving DecidableEq, Repr

structure MatrixCell where
  present : Bool
  watch_out : Bool
  detail : String
deriving DecidableEq, Repr

structure CategoryRow where
  category : String
  icon : String
  cells : List MatrixCell
deriving DecidableEq, Repr

structure MultiCompareResult where
  doc_names : List String
  rankings : List DocRanking
  matrix : List CategoryRow
  winner_name : String
  winner_reason : String
  recommendation : String
  llm_pick : String
  llm_model : String
  llm_enhanced : Bool
deriving DecidableEq, Repr

/-- Key points flagged `watch_out`. -/
def watchCount (r : AnalysisResult) : Nat :=
  (r.key_points.filter (·.watch_out)).length

/-- `_composite_score` (0.5, 0.3, 0.2 as exact rationals). -/
def composite_score (r : AnalysisResult) : ℚ :=
  (r.risk_score : ℚ) * (5/10) + (r.red_flags.length : ℚ) * 4 * (3/10) +
    (watchCount r : ℚ) * 3 * (2/10)

/-- Python `str.lower`. -/
def strLowerS (s : String) : String := ⟨lowerStr s.data⟩

/-- Python slicing `s[:n]`. -/
def strTake (s : String) (n : Nat) : String := ⟨s.data.take n⟩

/-- `_strengths` (its `name` parameter is unused in the source). -/
def strengthsOf (result : AnalysisResult) (all : List (String × AnalysisResult)) :
    List String :=
  let avg_risk : ℚ := (all.map fun p => ((p.2.risk_score : ℚ))).sum / (all.length : ℚ)
  let avg_flags : ℚ := (all.map fun p => ((p.2.red_flags.length : ℚ))).sum / (all.length : ℚ)
  let items :=
    (if (result.risk_score : ℚ) < avg_risk - 10 then
      ["Risk score (" ++ toString result.risk_score ++ "/100) is well below average"]
    else []) ++
    (if (result.red_flags.length : ℚ) < avg_flags then
      ["Fewer red flags than most alternatives"]
    else []) ++
    (let good := result.key_points.filter fun kp => !kp.watch_out
     if good ≠ [] then
       ["Favourable terms on: " ++ String.intercalate ", " ((good.take 3).map (·.category))]
     else []) ++
    (match result.readability with
     | some rd => if 50 ≤ rd.flesch_ease then ["Written in relatively plain language"] else []
     | none => [])
  if items = [] then ["No particular strengths identified"] else items.take 3

/-- `_weaknesses`. -/
def weaknessesOf (result : AnalysisResult) (all : List (String × AnalysisResult)) :
    List String :=
  let avg_risk : ℚ := (all.map fun p => ((p.2.risk_score : ℚ))).sum / (all.length : ℚ)
  let items :=
    (if avg_risk + 10 < (result.risk_score : ℚ) then
      ["Risk score (" ++ toString result.risk_score ++ "/100) is above average"]
    else []) ++
    (if result.red_flags ≠ [] then
      [toString result.red_flags.length ++ " red flag(s) detected"]
    else []) ++
    (let watch := result.key_points.filter (·.watch_out)
     if watch ≠ [] then
       ["Concerning clauses: " ++ String.intercalate ", " ((watch.take 3).map (·.category))]
     else []) ++
    (match result.readability with
     | some rd => if rd.flesch_ease < 35 then ["Complex, hard-to-follow language"] else []
     | none => [])
  items.take 3

def MATRIX_CATEGORY_ORDER : List String := [
  "Privacy & Data", "Dispute Resolution", "Account Termination", "Auto-Renewal",
  "Cancellation", "Refunds", "Payment & Billing", "Liability", "Intellectual Property",
  "Terms Changes", "Cookies & Tracking", "Non-Compete", "Health Data",
  "Default & Consequences", "Security Deposit", "Network & Roaming", "Service Level",
  "Force Majeure", "Age Restriction", "Governing Law"]

/-- `sort_key` in `_build_matrix` (999 for categories not in the canonical order). -/
def sortKeyCat (c : String) : Nat :=
  match MATRIX_CATEGORY_ORDER.indexOf? c with
  | some i => i
  | none => 999

/-- One step of the `all_cats` accumulation: record a key point's category and
icon unless the category is already present. -/
def catStep (acc : List (String × String)) (kp : KeyPoint) : List (String × String) :=
  if (acc.map Prod.fst).contains kp.category then acc
  else acc ++ [(kp.category, kp.icon)]

/-- The insertion-ordered `all_cats` dict: first occurrence wins the icon. -/
def collectCats (docs : List (String × AnalysisResult)) : List (String × String) :=
  docs.foldl (fun acc d => d.2.key_points.foldl catStep acc) []

/-- One matrix cell: the document's key point in this category, if any. -/
def cellOf (c : String) (r : AnalysisResult) : MatrixCell :=
  match r.key_points.find? fun k => k.category == c with
  | some kp => ⟨true, kp.watch_out, strTake kp.detail 120⟩
  | none => ⟨false, false, "Not mentioned"⟩

/-- The comparator of the ranking sort (`key=lambda x: x[2]`). -/
def scoreLE (a b : String × AnalysisResult × ℚ) : Prop := a.2.2 ≤ b.2.2

instance : DecidableRel scoreLE := fun a b => inferInstanceAs (Decidable (a.2.2 ≤ b.2.2))

instance : IsTotal (String × AnalysisResult × ℚ) scoreLE := ⟨fun a b => le_total a.2.2 b.2.2⟩

instance : IsTrans (String × AnalysisResult × ℚ) scoreLE :=
  ⟨fun _ _ _ h1 h2 => le_trans h1 h2⟩

/-- The comparator of the category sort (`key=sort_key`). -/
def catLE (a b : String × String) : Prop := sortKeyCat a.1 ≤ sortKeyCat b.1

instance : DecidableRel catLE := fun a b => inferInstanceAs (Decidable (sortKeyCat a.1 ≤ sortKeyCat b.1))

instance : IsTotal (String × String) catLE := ⟨fun a b => le_total (sortKeyCat a.1) (sortKeyCat b.1)⟩

instance : IsTrans (String × String) catLE := ⟨fun _ _ _ h1 h2 => le_trans h1 h2⟩

/-- The `{name: r for name, r in doc_pairs}` dict: the last pair with a given
name wins. -/
def lookupLast (pairs : List (String × AnalysisResult)) (n : String) :
    Option AnalysisResult :=
  pairs.reverse.lookup n

/-- Placeholder for the unreachable missing-name case of `name_to_result[n]`. -/
def defaultAR : AnalysisResult := ⟨"", "", "", "", 0, none, [], [], [], 0, 0⟩

/-- The rank-ordered `(name, result)` pairs the matrix builder works over. -/
def orderedDocs (doc_pairs : List (String × AnalysisResult)) (ranked_names : List String) :
    List (String × AnalysisResult) :=
  ranked_names.map fun n => (n, (lookupLast doc_pairs n).getD defaultAR)

/-- `_build_matrix`. -/
def build_matrix (doc_pairs : List (String × AnalysisResult)) (ranked_names : List String) :
    List CategoryRow :=
  let ordered := orderedDocs doc_pairs ranked_names
  let all_cats := collectCats ordered
  let sorted := List.insertionSort catLE all_cats
  sorted.map fun ci => ⟨ci.1, ci.2, ordered.map fun d => cellOf ci.1 d.2⟩

def defaultDR : DocRanking := ⟨0, "", defaultAR, 0, 0, [], []⟩

/-- `_build_recommendation`. -/
def buildRecommendation (rankings : List DocRanking) : String × String :=
  let best := rankings.headD defaultDR
  let worst := (rankings.getLast?).getD defaultDR
  let n := rankings.length
  let reason_parts :=
    (if best.result.risk_score < 30 then
      ["low risk score of " ++ toString best.result.risk_score ++ "/100"]
    else []) ++
    (if best.result.red_flags = [] then ["no red flags"]
     else if best.result.red_flags.length < worst.result.red_flags.length then
       ["fewest red flags (" ++ toString best.result.red_flags.length ++ ")"]
     else []) ++
    (if best.watch_count = 0 then ["no concerning clauses"] else [])
  let winner_reason :=
    if reason_parts ≠ [] then
      "Ranked #1 due to its " ++ String.intercalate ", " reason_parts ++ "."
    else
      "Ranked #1 with the lowest composite risk score among all " ++ toString n ++
        " documents."
  let score_gap : Int := (worst.result.risk_score : Int) - (best.result.risk_score : Int)
  let strength :=
    if 30 ≤ score_gap then "significantly"
    else if 15 ≤ score_gap then "meaningfully"
    else "slightly"
  let rec0 := "Based on the analysis of " ++ toString n ++ " documents, <strong>" ++
    best.name ++ "</strong> is " ++ strength ++ " the safest choice. "
  let rec1 :=
    match best.strengths with
    | s :: _ => rec0 ++ "It stands out for: " ++ strLowerS s ++ ". "
    | [] => rec0
  let rec2 :=
    if 2 < n && 1 < rankings.length then
      match rankings.drop 1 with
      | second :: _ =>
        if second.total_score - best.total_score < 5 then
          rec1 ++ second.name ++ " is a close second and also a reasonable option. "
        else rec1
      | [] => rec1
    else rec1
  let rec3 :=
    if worst.result.red_flags ≠ [] then
      rec2 ++ "Avoid <strong>" ++ worst.name ++ "</strong> if possible — it carries " ++
        toString worst.result.red_flags.length ++ " red flag(s) and scored " ++
        toString worst.result.risk_score ++ "/100 on risk."
    else rec2
  (winner_reason, rec3)

/-- The scored triples `(name, result, _composite_score(result))`. -/
def scoredOf (doc_pairs : List (String × AnalysisResult)) :
    List (String × AnalysisResult × ℚ) :=
  doc_pairs.map fun p => (p.1, p.2, composite_score p.2)

/-- `scored.sort(key=lambda x: x[2])` — a stable sort by composite score. -/
def sortedScoredOf (doc_pairs : List (String × AnalysisResult)) :
    List (String × AnalysisResult × ℚ) :=
  List.insertionSort scoreLE (scoredOf doc_pairs)

/-- The ranked leaderboard (`enumerate(scored, 1)`). -/
def rankingsOf (doc_pairs : List (String × AnalysisResult)) : List DocRanking :=
  let pairsAll := (sortedScoredOf doc_pairs).map fun x => (x.1, x.2.1)
  (sortedScoredOf doc_pairs).enum.map fun ie =>
    DocRanking.mk (ie.1 + 1) ie.2.1 ie.2.2.1 (round1 ie.2.2.2) (watchCount ie.2.2.1)
      (strengthsOf ie.2.2.1 pairsAll) (weaknessesOf ie.2.2.1 pairsAll)

/-- `multi_compare(doc_pairs)`; `ValueError` becomes `Except.error`. -/
def multi_compare (doc_pairs : List (String × AnalysisResult)) :
    Except String MultiCompareResult :=
  if doc_pairs.length < 2 then .error "Need at least 2 documents to compare."
  else
    let rankings := rankingsOf doc_pairs
    let ranked_names := rankings.map (·.name)
    let matrix := build_matrix doc_pairs ranked_names
    let wr := buildRecommendation rankings
    .ok ⟨ranked_names, rankings, matrix, (rankings.headD defaultDR).name, wr.1, wr.2,
      "", "", false⟩

/-- The risk score carried by an `analyze` outcome (0 for the error case). -/
def riskScoreOf : Except String AnalysisResult → Nat
  | .ok r => r.risk_score
  | .error _ => 0

/-- Concrete documents for the `multi_compare` claims: equal risk scores,
different red-flag and watch-out counts. -/
def witA : AnalysisResult := ⟨"T", "s", "Low", "r", 0, none, [], [], [], 1, 1⟩

def witB : AnalysisResult := ⟨"T", "s", "Low", "r", 0, none, [], [⟨"Flag.", []⟩], [], 1, 1⟩

def witPairs : List (String × AnalysisResult) := [("X", witA), ("Y", witB)]

/-- The result `multi_compare` computes on `witPairs`. -/
def witM : MultiCompareResult := ⟨["X", "Y"],
  [⟨1, "X", witA, 0, 0, ["Fewer red flags than most alternatives"], []⟩,
   ⟨2, "Y", witB, 6/5, 0, ["No particular strengths identified"], ["1 red flag(s) detected"]⟩],
  [], "X",
  "Ranked #1 due to its low risk score of 0/100, no red flags, no concerning clauses.",
  "Based on the analysis of 2 documents, <strong>X</strong> is slightly the safest choice. It stands out for: fewer red flags than most alternatives. Avoid <strong>Y</strong> if possible — it carries 1 red flag(s) and scored 0/100 on risk.",
  "", "", false⟩

def witDRA : DocRanking := ⟨1, "X", witA, 0, 0, ["Fewer red flags than most alternatives"], []⟩

def witDRB : DocRanking :=
  ⟨2, "Y", witB, 6/5, 0, ["No particular strengths identified"], ["1 red flag(s) detected"]⟩

/-- A document with one red flag and no watch-out key points (composite 1.2). -/
def cexA : AnalysisResult := ⟨"T", "s", "Low", "r", 0, none, [], [⟨"Flag one.", []⟩], [], 1, 1⟩

/-- A document with no red flags but three watch-out key points (composite 1.8). -/
def cexB : AnalysisResult := ⟨"T", "s", "Low", "r", 0, none,
  [⟨"Refunds", "i", "t", "d", true, []⟩, ⟨"Liability", "i", "t", "d", true, []⟩,
   ⟨"Cancellation", "i", "t", "d", true, []⟩], [], [], 1, 1⟩

/-- Two results that share the name "A": used to exercise the matrix builder's
name-based resolution.  `cr1` has a "Refunds" key point, `cr2` a "Liability"
one. -/
def cr1 : AnalysisResult :=
  ⟨"T", "s", "Low", "r", 0, none, [⟨"Refunds", "💰", "t", "refund detail", false, []⟩],
    [], [], 1, 1⟩

def cr2 : AnalysisResult :=
  ⟨"T", "s", "Low", "r", 0, none, [⟨"Liability", "⚠️", "t", "liability detail", true, []⟩],
    [], [], 1, 1⟩

/-! ## Lemmas and theorems -/

theorem prefMatch_iff (r : RE) (s : List Char) :
    prefMatch r s = true ↔ ∃ p, p <+: s ∧ r.rmatch p = true := by
  induction s generalizing r with
  | nil =>
    simp only [prefMatch]
    constructor
    · intro h; exact ⟨[], List.nil_prefix, h⟩
    · rintro ⟨p, hp, hm⟩
      rcases List.prefix_nil.mp hp with rfl
      exact hm
  | cons c cs ih =>
    simp only [prefMatch, Bool.or_eq_true, ih]
    constructor
    · rintro (h | ⟨p, hp, hm⟩)
      · exact ⟨[], List.nil_prefix, h⟩
      · exact ⟨c :: p, List.cons_prefix_cons.mpr ⟨rfl, hp⟩, hm⟩
    · rintro ⟨p, hp, hm⟩
      cases p with
      | nil => exact Or.inl hm
      | cons d p =>
        rcases List.cons_prefix_cons.mp hp with ⟨rfl, hp'⟩
        exact Or.inr ⟨p, hp', hm⟩

theorem rsearch_iff (r : RE) (s : List Char) :
    rsearch r s = true ↔ ∃ w, w <:+: s ∧ r.rmatch w = true := by
  induction s with
  | nil =>
    simp only [rsearch, prefMatch_iff]
    constructor
    · rintro ⟨p, hp, hm⟩; exact ⟨p, hp.isInfix, hm⟩
    · rintro ⟨w, hw, hm⟩
      exact ⟨w, (List.infix_nil.mp hw) ▸ List.nil_prefix, hm⟩
  | cons c cs ih =>
    simp only [rsearch, Bool.or_eq_true, prefMatch_iff, ih]
    constructor
    · rintro (⟨p, hp, hm⟩ | ⟨w, hw, hm⟩)
      · exact ⟨p, hp.isInfix, hm⟩
      · exact ⟨w, List.infix_cons hw, hm⟩
    · rintro ⟨w, hw, hm⟩
      rcases List.infix_iff_prefix_suffix.mp hw with ⟨t, hwt, hts⟩
      rcases List.suffix_cons_iff.mp hts with rfl | hts'
      · exact Or.inl ⟨w, hwt, hm⟩
      · exact Or.inr ⟨w, List.infix_iff_prefix_suffix.mpr ⟨t, hwt, hts'⟩, hm⟩

/-- `re.search` is monotone under taking super-strings (for `\b`-free patterns). -/
theorem rsearch_mono {r : RE} {s t : List Char} (h : s <:+: t)
    (hs : rsearch r s = true) : rsearch r t = true := by
  rcases (rsearch_iff r s).mp hs with ⟨w, hw, hm⟩
  exact (rsearch_iff r t).mpr ⟨w, hw.trans h, hm⟩

theorem collapse_ws_head {d : Char} (hd : isWS d = true) :
    ∀ x : List Char, ∃ r, collapse (d :: x) = ' ' :: r := by
  intro x
  induction x generalizing d with
  | nil => exact ⟨[], by simp [collapse, hd]⟩
  | cons e x' ih =>
    by_cases he : isWS e = true
    · rcases ih he with ⟨r, hr⟩
      exact ⟨r, by simp [collapse, hd, he, hr]⟩
    · exact ⟨collapse (e :: x'), by
        simp [collapse, hd, Bool.eq_false_iff.mpr he]⟩

theorem collapse_app_front : ∀ t v : List Char, collapse t <+: collapse (t ++ v)
  | [], v => by simp [collapse]
  | [c], v => by
    cases v with
    | nil => simp
    | cons d v' =>
      by_cases h : isWS c = true ∧ isWS d = true
      · rcases collapse_ws_head h.2 v' with ⟨r, hr⟩
        simp only [List.cons_append, List.nil_append, collapse, h.1, h.2, Bool.and_self,
          if_true, hr]
        exact ⟨r, by simp [collapse, h.1]⟩
      · have : (isWS c && isWS d) = false := by
          rcases Decidable.not_and_iff_or_not.mp h with h' | h' <;>
            simp [Bool.eq_false_iff.mpr h', Bool.and_eq_true, *]
        simp only [List.cons_append, List.nil_append, collapse, this, if_false,
          Bool.false_eq_true]
        exact ⟨collapse (d :: v'), by simp [collapse]⟩
  | c :: d :: rest, v => by
    have ih := collapse_app_front (d :: rest) v
    by_cases h : (isWS c && isWS d) = true
    · simpa [collapse, h, List.cons_append] using ih
    · simp only [collapse, h, List.cons_append, if_false, Bool.false_eq_true]
      exact List.cons_prefix_cons.mpr ⟨rfl, ih⟩

theorem collapse_pre_sub : ∀ u t : List Char, collapse t <:+: collapse (u ++ t)
  | [], t => by simp
  | c :: u', t => by
    have ih := collapse_pre_sub u' t
    cases h : u' ++ t with
    | nil =>
      rcases List.append_eq_nil.mp h with ⟨-, rfl⟩
      simp [collapse]
    | cons d rest =>
      by_cases hcd : (isWS c && isWS d) = true
      · rw [List.cons_append, h, collapse]
        · simpa [hcd, ← h] using ih
      · rw [List.cons_append, h]
        have : collapse (c :: d :: rest) = (if isWS c then ' ' else c) :: collapse (d :: rest) := by
          simp [collapse, hcd]
        rw [this, ← h]
        exact ih.trans (List.infix_cons (List.infix_refl _))

theorem dropWhile_app_of_head (p : Char → Bool) :
    ∀ (a l : List Char), (∀ c, l.head? = some c → p c = false) →
      (a ++ l).dropWhile p = a.dropWhile p ++ l := by
  intro a
  induction a with
  | nil =>
    intro l hl
    cases l with
    | nil => simp
    | cons c l' => simp [List.dropWhile_cons, hl c rfl]
  | cons c a' ih =>
    intro l hl
    by_cases hc : p c = true
    · simp [List.dropWhile_cons, hc, ih l hl]
    · simp [List.dropWhile_cons, Bool.eq_false_iff.mpr hc]

theorem head_dropWhile_not (p : Char → Bool) :
    ∀ (l : List Char) (c : Char), (l.dropWhile p).head? = some c → p c = false := by
  intro l
  induction l with
  | nil => intro c h; simp [List.dropWhile] at h
  | cons d l' ih =>
    intro c h
    by_cases hd : p d = true
    · exact ih c (by simpa [List.dropWhile_cons, hd] using h)
    · rw [List.dropWhile_cons, if_neg (by simp [hd])] at h
      cases h; simpa using hd

/-- A nonempty infix whose two end characters are not whitespace survives `strip`. -/
theorem infix_strip {w x : List Char} (h : w <:+: x)
    (h1 : ∀ c, w.head? = some c → isWS c = false)
    (h2 : ∀ c, w.getLast? = some c → isWS c = false) : w <:+: strip x := by
  cases w with
  | nil => exact List.nil_infix
  | cons c0 w' =>
    rcases h with ⟨a, b, rfl⟩
    have hx1 : ((a ++ (c0 :: w') ++ b).dropWhile isWS)
        = a.dropWhile isWS ++ ((c0 :: w') ++ b) := by
      rw [List.append_assoc]
      exact dropWhile_app_of_head isWS a _ (by intro c hc; cases hc; exact h1 c0 rfl)
    unfold strip dropTrailWS
    rw [hx1]
    have hx2 : (a.dropWhile isWS ++ (c0 :: w' ++ b)).reverse.dropWhile isWS
        = b.reverse.dropWhile isWS ++ ((c0 :: w').reverse ++ (a.dropWhile isWS).reverse) := by
      rw [← List.append_assoc, List.reverse_append, List.reverse_append]
      refine dropWhile_app_of_head isWS _ _ ?_
      intro c hc
      rw [List.head?_append, List.head?_reverse] at hc
      cases hcl : (c0 :: w').getLast? with
      | none => simp at hcl
      | some c1 =>
        rw [hcl] at hc
        obtain rfl := Option.some_inj.mp hc
        exact h2 _ hcl
    rw [hx2, List.reverse_append, List.reverse_append, List.reverse_reverse,
      List.reverse_reverse]
    exact ⟨(a.dropWhile isWS), (b.reverse.dropWhile isWS).reverse, by
      simp [List.append_assoc]⟩

theorem strip_sub (l : List Char) : strip l <:+: l := by
  have h1 : strip l <+: l.dropWhile isWS := by
    unfold strip dropTrailWS
    have h2 : ((l.dropWhile isWS).reverse.dropWhile isWS) <:+ (l.dropWhile isWS).reverse :=
      List.dropWhile_suffix isWS
    rcases h2 with ⟨u, hu⟩
    exact ⟨u.reverse, by rw [← List.reverse_append, hu, List.reverse_reverse]⟩
  exact h1.isInfix.trans (List.dropWhile_suffix isWS).isInfix

theorem strip_head_not_ws (l : List Char) {c : Char} (h : (strip l).head? = some c) :
    isWS c = false := by
  have hpre : strip l <+: l.dropWhile isWS := by
    unfold strip dropTrailWS
    have h2 : ((l.dropWhile isWS).reverse.dropWhile isWS) <:+ (l.dropWhile isWS).reverse :=
      List.dropWhile_suffix isWS
    rcases h2 with ⟨u, hu⟩
    exact ⟨u.reverse, by rw [← List.reverse_append, hu, List.reverse_reverse]⟩
  rcases hpre with ⟨rest, hrest⟩
  apply head_dropWhile_not isWS l c
  rw [← hrest, List.head?_append, h]
  rfl

theorem strip_getLast_not_ws (l : List Char) {c : Char} (h : (strip l).getLast? = some c) :
    isWS c = false := by
  unfold strip dropTrailWS at h
  rw [List.getLast?_reverse] at h
  exact head_dropWhile_not isWS _ c h

/-- Key monotonicity fact: the cleaned text is an infix of the cleaned text of
any extension on either side. -/
theorem clean_sub (u t v : List Char) : clean t <:+: clean (u ++ t ++ v) := by
  have h1 : collapse t <:+: collapse (u ++ t ++ v) := by
    have ha : collapse t <+: collapse (t ++ v) := collapse_app_front t v
    have hb : collapse (t ++ v) <:+: collapse (u ++ (t ++ v)) := collapse_pre_sub u (t ++ v)
    rw [List.append_assoc]
    exact ha.isInfix.trans hb
  have h2 : clean t <:+: collapse (u ++ t ++ v) :=
    (strip_sub (collapse t)).trans h1
  exact infix_strip h2 (fun c hc => strip_head_not_ws _ hc)
    (fun c hc => strip_getLast_not_ws _ hc)

theorem lowerStr_sub {s t : List Char} (h : s <:+: t) : lowerStr s <:+: lowerStr t := by
  rcases h with ⟨a, b, rfl⟩
  exact ⟨lowerStr a, lowerStr b, by simp [lowerStr]⟩


theorem sum_filter_ite (t : List Char) (l : List (Nat × RE)) :
    ((l.filter fun wp => rsearch wp.2 t).map Prod.fst).sum
      = (l.map fun wp => if rsearch wp.2 t = true then wp.1 else 0).sum := by
  induction l with
  | nil => rfl
  | cons x xs ih =>
    by_cases h : rsearch x.2 t = true <;> simp [List.filter_cons, h, ih]

/-- C1: the risk score is the sum of the weights of the risk patterns that
match anywhere in the lower-cased text — each pattern counted at most once —
capped at 100; the score is always in [0,100]; and the tier is "High" iff the
capped score is ≥ 50, "Medium" iff it is in [25,50), and "Low" otherwise. -/
theorem c1_risk_scorer (text : List Char) :
    (compute_risk text).2.2 =
      min ((RISK_PATTERNS.map fun wp =>
        if rsearch wp.2 (lowerStr text) = true then wp.1 else 0).sum) 100 ∧
    (compute_risk text).2.2 ≤ 100 ∧
    ((compute_risk text).1 = "High" ↔ 50 ≤ (compute_risk text).2.2) ∧
    ((compute_risk text).1 = "Medium" ↔
      25 ≤ (compute_risk text).2.2 ∧ (compute_risk text).2.2 < 50) ∧
    ((compute_risk text).1 = "Low" ↔ (compute_risk text).2.2 < 25) := by
  have hs := sum_filter_ite (lowerStr text) RISK_PATTERNS
  simp only [compute_risk]
  split_ifs with h1 h2 <;> dsimp only
  · exact ⟨by rw [← hs], Nat.min_le_right _ _,
      iff_of_true rfl h1,
      iff_of_false (by decide) (by omega),
      iff_of_false (by decide) (by omega)⟩
  · exact ⟨by rw [← hs], Nat.min_le_right _ _,
      iff_of_false (by decide) h1,
      iff_of_true rfl ⟨h2, by omega⟩,
      iff_of_false (by decide) (by omega)⟩
  · exact ⟨by rw [← hs], Nat.min_le_right _ _,
      iff_of_false (by decide) h1,
      iff_of_false (by decide) (by omega),
      iff_of_true rfl (by omega)⟩

/-- C2: `analyze` fails with the empty-document error exactly when the
normalized text is empty; any other text — however short — yields a fully
populated result (readability included). -/
theorem c2_empty_gate (text : List Char) :
    (analyze text = .error "Empty document." ↔ clean text = []) ∧
    ((∃ r, analyze text = .ok r ∧ r.readability.isSome = true) ↔ clean text ≠ []) := by
  by_cases h : clean text = [] <;> simp [analyze, h]

/-- C7: `multi_compare` fails (with the insufficient-input error) iff fewer
than 2 pairs are supplied; with exactly one pair it fails, and with 2 or more
it returns a result — there is no upper-bound check. -/
theorem c7_insufficient (pairs : List (String × AnalysisResult)) :
    ((∃ e, multi_compare pairs = .error e) ↔ pairs.length < 2) ∧
    ((∃ m, multi_compare pairs = .ok m) ↔ 2 ≤ pairs.length) ∧
    (pairs.length = 1 → multi_compare pairs = .error "Need at least 2 documents to compare.") := by
  refine ⟨?_, ?_, ?_⟩
  · by_cases h : pairs.length < 2
    · simp [multi_compare, h]
    · simp [multi_compare, h]
  · by_cases h : pairs.length < 2
    · simp [multi_compare, h]
    · simp [multi_compare, h]
      omega
  · intro h1
    have h : pairs.length < 2 := by omega
    simp [multi_compare, h]

theorem c7_witness :
    multi_compare [("A", defaultAR)] = .error "Need at least 2 documents to compare." :=
  (c7_insufficient [("A", defaultAR)]).2.2 rfl

theorem compute_risk_mono {a b : List Char} (h : a <:+: b) :
    (compute_risk a).2.2 ≤ (compute_risk b).2.2 := by
  have hmono : ((RISK_PATTERNS.filter fun wp => rsearch wp.2 (lowerStr a)).map Prod.fst).sum
      ≤ ((RISK_PATTERNS.filter fun wp => rsearch wp.2 (lowerStr b)).map Prod.fst).sum := by
    rw [sum_filter_ite, sum_filter_ite]
    apply List.sum_le_sum
    intro wp _
    by_cases hw : rsearch wp.2 (lowerStr a) = true
    · rw [if_pos hw, if_pos (rsearch_mono (lowerStr_sub h) hw)]
    · simp [hw]
  have ha : (compute_risk a).2.2 =
      min (((RISK_PATTERNS.filter fun wp => rsearch wp.2 (lowerStr a)).map Prod.fst).sum) 100 := by
    simp only [compute_risk]; split_ifs <;> rfl
  have hb : (compute_risk b).2.2 =
      min (((RISK_PATTERNS.filter fun wp => rsearch wp.2 (lowerStr b)).map Prod.fst).sum) 100 := by
    simp only [compute_risk]; split_ifs <;> rfl
  rw [ha, hb]
  exact min_le_min hmono le_rfl

theorem analyze_risk_eq (t : List Char) (h : clean t ≠ []) :
    riskScoreOf (analyze t) = (compute_risk (clean t)).2.2 := by
  simp [analyze, riskScoreOf, h]

/-- C9: adding text on either side of a document can only keep or raise the
risk score `analyze` reports (the error case counts as score 0). -/
theorem c9_risk_monotone (t s₁ s₂ : List Char) :
    riskScoreOf (analyze t) ≤ riskScoreOf (analyze (s₁ ++ t ++ s₂)) := by
  by_cases h : clean t = []
  · simp [analyze, h, riskScoreOf]
  · have hinf : clean t <:+: clean (s₁ ++ t ++ s₂) := clean_sub s₁ t s₂
    have hne : clean (s₁ ++ t ++ s₂) ≠ [] := by
      intro h0
      rw [h0] at hinf
      exact h (List.infix_nil.mp hinf)
    rw [analyze_risk_eq t h, analyze_risk_eq _ hne]
    exact compute_risk_mono hinf

theorem mapM_loop_map {α β : Type} (f : α → β) (g : β → Option α)
    (h : ∀ a, g (f a) = some a) :
    ∀ (l : List α) (acc : List α),
      List.mapM.loop g (l.map f) acc = some (acc.reverse ++ l) := by
  intro l
  induction l with
  | nil => intro acc; simp [List.mapM.loop]
  | cons x xs ih => intro acc; simp [List.mapM.loop, h, ih]

theorem mapM_map_some {α β : Type} (f : α → β) (g : β → Option α)
    (h : ∀ a, g (f a) = some a) (l : List α) : (l.map f).mapM g = some l := by
  simpa [List.mapM] using mapM_loop_map f g h l []

theorem kp_roundtrip (kp : KeyPoint) : kpFromDict (kpToDict kp) = some kp := by
  rcases kp with ⟨c, i, t, d, w, e⟩
  have he := mapM_loop_map PyVal.str PyVal.asStr (fun _ => rfl) e []
  simp [kpToDict, kpFromDict, PyVal.get?, PyVal.asStr, PyVal.asBool, PyVal.asStrList,
    List.lookup]
  rw [he]
  simp

theorem rf_roundtrip (rf : RedFlag) : rfFromDict (rfToDict rf) = some rf := by
  rcases rf with ⟨m, e⟩
  have he := mapM_loop_map PyVal.str PyVal.asStr (fun _ => rfl) e []
  simp [rfToDict, rfFromDict, PyVal.get?, PyVal.asStr, PyVal.asStrList, List.lookup]
  rw [he]
  simp

theorem rd_roundtrip (rd : ReadabilityScore) : rdFromDict (rdToDict rd) = some rd := by
  rcases rd with ⟨a, b, c, d, e, f, g, h⟩
  simp [rdToDict, rdFromDict, PyVal.get?, PyVal.asRat, PyVal.asStr, List.lookup]

/-- The serializer round-trips every `AnalysisResult` exactly. -/
theorem from_to_dict (r : AnalysisResult) : from_dict (to_dict r) = some r := by
  rcases r with ⟨dt, ds, rl, rr, rs, rd, kps, rfs, bs, wc, cc⟩
  have hbs := mapM_loop_map PyVal.str PyVal.asStr (fun _ => rfl) bs []
  have hkp := mapM_loop_map kpToDict kpFromDict kp_roundtrip kps []
  have hrf := mapM_loop_map rfToDict rfFromDict rf_roundtrip rfs []
  cases rd with
  | none =>
    simp [to_dict, from_dict, PyVal.get?, PyVal.asStr, PyVal.asInt, PyVal.asList,
      PyVal.asStrList, List.lookup]
    rw [hbs, hkp, hrf]
    simp
  | some rv =>
    simp [to_dict, from_dict, PyVal.get?, PyVal.asStr, PyVal.asInt, PyVal.asList,
      PyVal.asStrList, List.lookup]
    rw [hbs, hkp, hrf]
    simp [rd_roundtrip]

/-- C3: for any text whose normalization is non-empty, `analyze` succeeds and
deserializing its serialization reproduces the result exactly, field for
field. -/
theorem c3_roundtrip (text : List Char) (h : clean text ≠ []) :
    ∃ r, analyze text = .ok r ∧ from_dict (to_dict r) = some r := by
  rcases (c2_empty_gate text).2.mpr h with ⟨r, hr, -⟩
  exact ⟨r, hr, from_to_dict r⟩

theorem c3_roundtrip_witness :
    clean "Hi.".data ≠ [] ∧
      ∃ r, analyze "Hi.".data = .ok r ∧ from_dict (to_dict r) = some r :=
  ⟨by decide, c3_roundtrip "Hi.".data (by decide)⟩

/-- C4 counterexample: when seven conditional checklist rules fire (six from
the text plus the high-risk rule), the constant "keep a copy" item is truncated
away, so the last item of the checklist is not the constant item. -/
theorem c4_counterexample :
    (build_checklist "hipaa roaming indemnify no refund collateral non-compete here".data
        "General Terms & Conditions" "High").getLast? ≠
      some "Keep a copy of this document for your records once signed." := by decide

/-- C4 (amended): the checklist always has at most 7 items; whenever at most six
conditional rules fired the constant "keep a copy" item is last (the original
claim fails only when seven or more conditional items fire and the constant item
is truncated away); and when no conditional rule fired, the result is exactly
the two generic fallback items followed by the constant item. -/
theorem c4_checklist (text : List Char) (dt rl : String) :
    (build_checklist text dt rl).length ≤ 7 ∧
    ((checklistBase text rl).length ≤ 6 →
      (build_checklist text dt rl).getLast? =
        some "Keep a copy of this document for your records once signed.") ∧
    (checklistBase text rl = [] →
      build_checklist text dt rl =
        ["Read the full document carefully before agreeing.",
         "Check for any trial periods, fees, or commitments involved.",
         "Keep a copy of this document for your records once signed."]) := by
  refine ⟨?_, ?_, ?_⟩
  · simp only [build_checklist]
    exact List.length_take_le 7 _
  · intro h6
    simp only [build_checklist]
    by_cases hb : checklistBase text rl = []
    · rw [hb]
      rfl
    · rw [if_neg hb]
      have hlen : (checklistBase text rl ++
          ["Keep a copy of this document for your records once signed."]).length ≤ 7 := by
        simp only [List.length_append, List.length_cons, List.length_nil]
        omega
      rw [List.take_of_length_le hlen]
      exact List.getLast?_concat _
  · intro hb
    simp only [build_checklist]
    rw [hb]
    rfl

theorem c4_checklist_witness :
    (checklistBase [] "Low").length ≤ 6 ∧ checklistBase [] "Low" = [] ∧
      (build_checklist [] "General Terms & Conditions" "Low").length ≤ 7 ∧
      (build_checklist [] "General Terms & Conditions" "Low").getLast? =
        some "Keep a copy of this document for your records once signed." ∧
      build_checklist [] "General Terms & Conditions" "Low" =
        ["Read the full document carefully before agreeing.",
         "Check for any trial periods, fees, or commitments involved.",
         "Keep a copy of this document for your records once signed."] := by
  have h := c4_checklist [] "General Terms & Conditions" "Low"
  exact ⟨by decide, by decide, h.1, h.2.1 (by decide), h.2.2 (by decide)⟩

theorem feGo_cons (maxR : Nat) (pats : List RE) (s0 : List Char)
    (rest seen found : List (List Char)) :
    feGo maxR pats (s0 :: rest) seen found =
      if ((clean s0).length < 20 || 500 < (clean s0).length) = true then
        feGo maxR pats rest seen found
      else
        let app : Bool := (pats.any fun p => rsearch p (lowerStr (clean s0))) &&
          !(seen.contains (feKey (clean s0)))
        let seen' := if app then feKey (clean s0) :: seen else seen
        let found' := if app then found ++ [clean s0] else found
        if maxR ≤ found'.length then found' else feGo maxR pats rest seen' found' := rfl

theorem feGo_length (maxR : Nat) (pats : List RE) :
    ∀ (sents seen found : List (List Char)), found.length < maxR →
      (feGo maxR pats sents seen found).length ≤ maxR := by
  intro sents
  induction sents with
  | nil => intro seen found h; simpa [feGo] using Nat.le_of_lt h
  | cons s0 rest ih =>
    intro seen found hlt
    rw [feGo_cons]
    by_cases h1 : ((clean s0).length < 20 || 500 < (clean s0).length) = true
    · rw [if_pos h1]; exact ih _ _ hlt
    · rw [if_neg h1]
      dsimp only
      set app := (pats.any fun p => rsearch p (lowerStr (clean s0))) &&
        !(seen.contains (feKey (clean s0))) with happ
      have hflen : (if app then found ++ [clean s0] else found).length ≤ found.length + 1 := by
        split_ifs <;> simp
      by_cases h2 : maxR ≤ (if app then found ++ [clean s0] else found).length
      · rw [if_pos h2]; omega
      · rw [if_neg h2]; exact ih _ _ (by omega)

theorem feGo_props (maxR : Nat) (pats : List RE) (Q : List Char → Prop)
    (hQ : ∀ s0 : List Char, 20 ≤ (clean s0).length → (clean s0).length ≤ 500 →
      (pats.any fun p => rsearch p (lowerStr (clean s0))) = true → Q (clean s0)) :
    ∀ (sents seen found : List (List Char)), (∀ x ∈ found, Q x) →
      ∀ x ∈ feGo maxR pats sents seen found, Q x := by
  intro sents
  induction sents with
  | nil => intro seen found hf x hx; exact hf x (by simpa [feGo] using hx)
  | cons s0 rest ih =>
    intro seen found hf x hx
    rw [feGo_cons] at hx
    by_cases h1 : ((clean s0).length < 20 || 500 < (clean s0).length) = true
    · rw [if_pos h1] at hx; exact ih _ _ hf x hx
    · rw [if_neg h1] at hx
      dsimp only at hx
      have hlen : 20 ≤ (clean s0).length ∧ (clean s0).length ≤ 500 := by
        rw [Bool.or_eq_true, decide_eq_true_iff, decide_eq_true_iff] at h1
        push_neg at h1
        omega
      by_cases happ : ((pats.any fun p => rsearch p (lowerStr (clean s0))) &&
          !(seen.contains (feKey (clean s0)))) = true
      · have happ' := happ
        rw [Bool.and_eq_true] at happ'
        have hQs : Q (clean s0) := hQ s0 hlen.1 hlen.2 happ'.1
        have hf' : ∀ y ∈ found ++ [clean s0], Q y := by
          intro y hy
          rcases List.mem_append.mp hy with hy | hy
          · exact hf y hy
          · rcases List.mem_singleton.mp hy with rfl; exact hQs
        simp only [happ, if_true] at hx
        split_ifs at hx
        · exact hf' x hx
        · exact ih _ _ hf' x hx
      · simp only [happ, if_false, Bool.false_eq_true] at hx
        split_ifs at hx
        · exact hf x hx
        · exact ih _ _ hf x hx

theorem feGo_keys (maxR : Nat) (pats : List RE) :
    ∀ (sents seen found : List (List Char)),
      found.Pairwise (fun a b => feKey a ≠ feKey b) →
      (∀ x ∈ found, feKey x ∈ seen) →
      (feGo maxR pats sents seen found).Pairwise (fun a b => feKey a ≠ feKey b) := by
  intro sents
  induction sents with
  | nil => intro seen found hp _; simpa [feGo] using hp
  | cons s0 rest ih =>
    intro seen found hp hseen
    rw [feGo_cons]
    by_cases h1 : ((clean s0).length < 20 || 500 < (clean s0).length) = true
    · rw [if_pos h1]; exact ih _ _ hp hseen
    · rw [if_neg h1]
      dsimp only
      by_cases happ : ((pats.any fun p => rsearch p (lowerStr (clean s0))) &&
          !(seen.contains (feKey (clean s0)))) = true
      · have happ' := happ
        rw [Bool.and_eq_true] at happ'
        have hnot : feKey (clean s0) ∉ seen := by simpa using happ'.2
        have hp' : (found ++ [clean s0]).Pairwise (fun a b => feKey a ≠ feKey b) := by
          rw [List.pairwise_append]
          refine ⟨hp, by simp, ?_⟩
          intro a ha b hb
          rcases List.mem_singleton.mp hb with rfl
          intro hk
          exact hnot (hk ▸ hseen a ha)
        have hseen' : ∀ x ∈ found ++ [clean s0], feKey x ∈ feKey (clean s0) :: seen := by
          intro x hx
          rcases List.mem_append.mp hx with hx | hx
          · exact List.mem_cons_of_mem _ (hseen x hx)
          · rcases List.mem_singleton.mp hx with rfl; exact List.mem_cons_self _ _
        simp only [happ, if_true]
        split_ifs
        · exact hp'
        · exact ih _ _ hp' hseen'
      · simp only [happ, if_false, Bool.false_eq_true]
        split_ifs
        · exact hp
        · exact ih _ _ hp hseen

theorem feGo_split (maxR : Nat) (pats : List RE) :
    ∀ (sents seen found : List (List Char)),
      ∃ t, feGo maxR pats sents seen found = found ++ t ∧
        t.Sublist (sents.map clean) := by
  intro sents
  induction sents with
  | nil => intro seen found; exact ⟨[], by simp [feGo], by simp⟩
  | cons s0 rest ih =>
    intro seen found
    rw [feGo_cons]
    by_cases h1 : ((clean s0).length < 20 || 500 < (clean s0).length) = true
    · rw [if_pos h1]
      rcases ih seen found with ⟨t, ht, hsub⟩
      exact ⟨t, ht, by simpa using hsub.cons (clean s0)⟩
    · rw [if_neg h1]
      dsimp only
      by_cases happ : ((pats.any fun p => rsearch p (lowerStr (clean s0))) &&
          !(seen.contains (feKey (clean s0)))) = true
      · simp only [happ, if_true]
        split_ifs
        · exact ⟨[clean s0], rfl, (List.nil_sublist _).cons₂ _⟩
        · rcases ih (feKey (clean s0) :: seen) (found ++ [clean s0]) with ⟨t, ht, hsub⟩
          exact ⟨[clean s0] ++ t, by rw [ht, List.append_assoc], hsub.cons₂ _⟩
      · simp only [happ, if_false, Bool.false_eq_true]
        split_ifs
        · exact ⟨[], by simp, by simp⟩
        · rcases ih seen found with ⟨t, ht, hsub⟩
          exact ⟨t, ht, by simpa using hsub.cons (clean s0)⟩

/-- C8: every evidence list contains at most `max_results` sentences, each of
length between 20 and 500 characters, each case-insensitively matching a given
pattern, with pairwise-distinct deduplication keys (lower-cased
whitespace-collapsed 80-character prefixes), appearing in document order
(a sublist of the cleaned sentence sequence). -/
theorem c8_evidence_finder (text : List Char) (pats : List RE) (maxR : Nat)
    (hmax : 1 ≤ maxR) :
    (find_evidence text pats maxR).length ≤ maxR ∧
    (∀ s ∈ find_evidence text pats maxR,
      20 ≤ s.length ∧ s.length ≤ 500 ∧
        (pats.any fun p => rsearch p (lowerStr s)) = true) ∧
    (find_evidence text pats maxR).Pairwise (fun a b => feKey a ≠ feKey b) ∧
    (find_evidence text pats maxR).Sublist ((splitSentences text).map clean) := by
  refine ⟨feGo_length maxR pats _ [] [] (by simp only [List.length_nil]; omega), ?_,
    feGo_keys maxR pats _ [] [] (by simp) (by simp), ?_⟩
  · exact feGo_props maxR pats _ (fun s0 h1 h2 h3 => ⟨h1, h2, h3⟩) _ [] [] (by simp)
  · rcases feGo_split maxR pats (splitSentences text) [] [] with ⟨t, ht, hsub⟩
    unfold find_evidence
    rw [ht]
    simpa using hsub

theorem c8_evidence_witness :
    (1 ≤ 2) ∧
    ((find_evidence "Cancellation may happen at any time.".data [rlit "cancel"] 2).length ≤ 2 ∧
    (∀ s ∈ find_evidence "Cancellation may happen at any time.".data [rlit "cancel"] 2,
      20 ≤ s.length ∧ s.length ≤ 500 ∧
        ([rlit "cancel"].any fun p => rsearch p (lowerStr s)) = true) ∧
    (find_evidence "Cancellation may happen at any time.".data
      [rlit "cancel"] 2).Pairwise (fun a b => feKey a ≠ feKey b) ∧
    (find_evidence "Cancellation may happen at any time.".data [rlit "cancel"] 2).Sublist
      ((splitSentences "Cancellation may happen at any time.".data).map clean)) :=
  ⟨by decide, c8_evidence_finder "Cancellation may happen at any time.".data
    [rlit "cancel"] 2 (by decide)⟩

theorem multi_compare_ok {pairs : List (String × AnalysisResult)}
    {m : MultiCompareResult} (hm : multi_compare pairs = .ok m) :
    2 ≤ pairs.length ∧ m.rankings = rankingsOf pairs ∧
      m.matrix = build_matrix pairs ((rankingsOf pairs).map (·.name)) := by
  unfold multi_compare at hm
  split_ifs at hm with h
  rw [Except.ok.injEq] at hm
  obtain rfl := hm.symm
  exact ⟨by omega, rfl, rfl⟩

theorem rankingsOf_length (pairs : List (String × AnalysisResult)) :
    (rankingsOf pairs).length = (sortedScoredOf pairs).length := by
  simp [rankingsOf]

theorem sortedScoredOf_length (pairs : List (String × AnalysisResult)) :
    (sortedScoredOf pairs).length = pairs.length := by
  simp [sortedScoredOf, scoredOf]

theorem rankingsOf_getElem (pairs : List (String × AnalysisResult)) (i : Nat)
    (hi : i < (rankingsOf pairs).length)
    (hi' : i < (sortedScoredOf pairs).length) :
    (rankingsOf pairs)[i] =
      DocRanking.mk (i + 1) ((sortedScoredOf pairs)[i]).1
        ((sortedScoredOf pairs)[i]).2.1
        (round1 ((sortedScoredOf pairs)[i]).2.2)
        (watchCount ((sortedScoredOf pairs)[i]).2.1)
        (strengthsOf ((sortedScoredOf pairs)[i]).2.1
          ((sortedScoredOf pairs).map fun x => (x.1, x.2.1)))
        (weaknessesOf ((sortedScoredOf pairs)[i]).2.1
          ((sortedScoredOf pairs).map fun x => (x.1, x.2.1))) := by
  simp [rankingsOf, List.enum]

theorem sortedScoredOf_mem {pairs : List (String × AnalysisResult)}
    {x : String × AnalysisResult × ℚ} (hx : x ∈ sortedScoredOf pairs) :
    x.2.2 = composite_score x.2.1 ∧ (x.1, x.2.1) ∈ pairs := by
  have hx' : x ∈ scoredOf pairs :=
    ((List.perm_insertionSort scoreLE _).mem_iff).mp hx
  rcases List.mem_map.mp hx' with ⟨p, hp, rfl⟩
  exact ⟨rfl, by simpa using hp⟩

theorem sortedScoredOf_sorted (pairs : List (String × AnalysisResult)) :
    List.Sorted scoreLE (sortedScoredOf pairs) :=
  List.sorted_insertionSort scoreLE _

theorem sortedScoredOf_le (pairs : List (String × AnalysisResult)) {i j : Nat}
    (hij : i ≤ j) (hj : j < (sortedScoredOf pairs).length)
    (hi : i < (sortedScoredOf pairs).length) :
    ((sortedScoredOf pairs)[i]).2.2 ≤
      ((sortedScoredOf pairs)[j]).2.2 := by
  rcases Nat.eq_or_lt_of_le hij with rfl | hlt
  · exact le_refl _
  · exact List.pairwise_iff_get.mp (sortedScoredOf_sorted pairs)
      ⟨i, lt_of_le_of_lt hij hj⟩ ⟨j, hj⟩ hlt

theorem composite_lt_of (ra rb : AnalysisResult)
    (hrisk : ra.risk_score = rb.risk_score) (hwatch : watchCount ra = watchCount rb)
    (hflags : ra.red_flags.length < rb.red_flags.length) :
    composite_score ra < composite_score rb := by
  unfold composite_score
  rw [hrisk, hwatch]
  have hc : ((ra.red_flags.length : ℚ)) < (rb.red_flags.length : ℚ) := by
    exact_mod_cast hflags
  linarith

/-- C5 (amended): among the rankings of a `multi_compare` run, if two documents
have identical risk scores, identical watch-out key-point counts, and different
red-flag counts, the one with fewer red flags gets the better (lower) rank.
(The original claim, which does not fix the watch-out counts, is false: the
composite score also weighs watch-out key points.) -/
theorem c5_amended (pairs : List (String × AnalysisResult)) (m : MultiCompareResult)
    (hm : multi_compare pairs = .ok m) (dra drb : DocRanking)
    (ha : dra ∈ m.rankings) (hb : drb ∈ m.rankings)
    (hrisk : dra.result.risk_score = drb.result.risk_score)
    (hwatch : watchCount dra.result = watchCount drb.result)
    (hflags : dra.result.red_flags.length < drb.result.red_flags.length) :
    dra.rank < drb.rank := by
  obtain ⟨-, hrk, -⟩ := multi_compare_ok hm
  rw [hrk] at ha hb
  rcases List.mem_iff_getElem.mp ha with ⟨i, hi, hieq⟩
  rcases List.mem_iff_getElem.mp hb with ⟨j, hj, hjeq⟩
  have hi' : i < (sortedScoredOf pairs).length := by
    rw [← rankingsOf_length]; exact hi
  have hj' : j < (sortedScoredOf pairs).length := by
    rw [← rankingsOf_length]; exact hj
  have hgi := rankingsOf_getElem pairs i hi hi'
  have hgj := rankingsOf_getElem pairs j hj hj'
  have hri : dra.rank = i + 1 := by rw [← hieq, hgi]
  have hrj : drb.rank = j + 1 := by rw [← hjeq, hgj]
  have hresi : dra.result = ((sortedScoredOf pairs)[i]).2.1 := by rw [← hieq, hgi]
  have hresj : drb.result = ((sortedScoredOf pairs)[j]).2.1 := by rw [← hjeq, hgj]
  have hcomp : composite_score dra.result < composite_score drb.result :=
    composite_lt_of _ _ hrisk hwatch hflags
  have hki : ((sortedScoredOf pairs)[i]).2.2 = composite_score dra.result := by
    rw [hresi]
    exact (sortedScoredOf_mem (List.getElem_mem _)).1
  have hkj : ((sortedScoredOf pairs)[j]).2.2 = composite_score drb.result := by
    rw [hresj]
    exact (sortedScoredOf_mem (List.getElem_mem _)).1
  have hij : i < j := by
    by_contra hle
    push_neg at hle
    have hle2 := sortedScoredOf_le pairs hle hi' (lt_of_le_of_lt hle hi')
    rw [hki, hkj] at hle2
    exact absurd hcomp (not_lt.mpr hle2)
  omega

theorem except_toOption_eq {ε α : Type} (e : Except ε α) (a : α)
    (h : e.toOption = some a) : e = .ok a := by
  cases e with
  | error err => simp [Except.toOption] at h
  | ok x => simp [Except.toOption] at h; rw [h]

theorem witA_comp : composite_score witA = 0 := by
  simp [composite_score, witA, watchCount]

theorem witB_comp : composite_score witB = 6/5 := by
  simp [composite_score, witB, watchCount]
  norm_num

theorem wit_sorted : sortedScoredOf witPairs =
    [("X", witA, composite_score witA), ("Y", witB, composite_score witB)] := by
  simp only [sortedScoredOf, scoredOf, witPairs, List.map, List.insertionSort]
  rw [List.orderedInsert, List.orderedInsert, if_pos]
  show scoreLE _ _
  unfold scoreLE
  rw [witA_comp, witB_comp]
  norm_num

theorem round1_zero : round1 0 = 0 := by
  norm_num [round1, roundHalfEven]

theorem round1_sixfifths : round1 (6/5) = 6/5 := by
  norm_num [round1, roundHalfEven]

theorem wit_strengthsA :
    strengthsOf witA [("X", witA), ("Y", witB)] = ["Fewer red flags than most alternatives"] := by
  simp [strengthsOf, witA, witB]
  norm_num

theorem wit_strengthsB :
    strengthsOf witB [("X", witA), ("Y", witB)] = ["No particular strengths identified"] := by
  simp [strengthsOf, witA, witB]
  norm_num

theorem wit_weaknessesA :
    weaknessesOf witA [("X", witA), ("Y", witB)] = [] := by
  simp [weaknessesOf, witA, witB]

theorem wit_weaknessesB :
    weaknessesOf witB [("X", witA), ("Y", witB)] = ["1 red flag(s) detected"] := by
  simp [weaknessesOf, witA, witB]
  norm_num
  rfl

theorem wit_rankings : rankingsOf witPairs = [witDRA, witDRB] := by
  simp only [rankingsOf, wit_sorted, List.enum, List.enumFrom, List.map]
  simp only [witA_comp, witB_comp, round1_zero, round1_sixfifths,
    wit_strengthsA, wit_strengthsB, wit_weaknessesA, wit_weaknessesB]
  norm_num [witDRA, witDRB, watchCount, witA, witB]

theorem wit_mc : multi_compare witPairs = .ok witM := by
  simp only [multi_compare]
  rw [if_neg (by decide : ¬(witPairs.length < 2)), wit_rankings]
  rfl

theorem cex_compA : composite_score cexA = 6/5 := by
  simp [composite_score, cexA, watchCount]
  norm_num

theorem cex_compB : composite_score cexB = 9/5 := by
  simp [composite_score, cexB, watchCount]
  norm_num

theorem cex_sorted : sortedScoredOf [("A", cexA), ("B", cexB)] =
    [("A", cexA, composite_score cexA), ("B", cexB, composite_score cexB)] := by
  simp only [sortedScoredOf, scoredOf, List.map, List.insertionSort]
  rw [List.orderedInsert, List.orderedInsert, if_pos]
  show scoreLE _ _
  unfold scoreLE
  rw [cex_compA, cex_compB]
  norm_num

/-- C5 counterexample: two documents with identical risk scores where the one
with fewer red flags (but more watch-out key points) gets the worse rank — the
composite score also weighs watch-out key points, so the claim as stated fails
(document "B" has fewer red flags than "A" yet ranks second). -/
theorem c5_counterexample :
    cexA.risk_score = cexB.risk_score ∧
    cexB.red_flags.length < cexA.red_flags.length ∧
    ∃ m, multi_compare [("A", cexA), ("B", cexB)] = .ok m ∧
      m.rankings.map (fun dr => (dr.name, dr.rank)) = [("A", 1), ("B", 2)] := by
  refine ⟨rfl, by decide, ⟨_, rfl, ?_⟩⟩
  show (rankingsOf [("A", cexA), ("B", cexB)]).map (fun dr => (dr.name, dr.rank)) =
    [("A", 1), ("B", 2)]
  simp only [rankingsOf, cex_sorted, List.enum, List.enumFrom, List.map]

theorem c5_amended_witness :
    multi_compare witPairs = .ok witM ∧ witDRA.rank < witDRB.rank :=
  ⟨wit_mc, c5_amended witPairs witM wit_mc witDRA witDRB
    (by simp only [witM]; exact List.mem_cons_self _ _)
    (by simp only [witM]; exact List.mem_cons_of_mem _ (List.mem_cons_self _ _))
    (by decide) (by decide) (by decide)⟩


theorem cr1_comp : composite_score cr1 = 0 := by
  simp [composite_score, cr1, watchCount]

theorem cr2_comp : composite_score cr2 = 3/5 := by
  simp [composite_score, cr2, watchCount]
  norm_num

theorem cr_sorted : sortedScoredOf [("A", cr1), ("A", cr2)] =
    [("A", cr1, composite_score cr1), ("A", cr2, composite_score cr2)] := by
  simp only [sortedScoredOf, scoredOf, List.map, List.insertionSort]
  rw [List.orderedInsert, List.orderedInsert, if_pos]
  show scoreLE _ _
  unfold scoreLE
  rw [cr1_comp, cr2_comp]
  norm_num

theorem cr_names : (rankingsOf [("A", cr1), ("A", cr2)]).map (fun r => r.name) = ["A", "A"] := by
  simp only [rankingsOf, cr_sorted, List.enum, List.enumFrom, List.map]

theorem cr_matrix : build_matrix [("A", cr1), ("A", cr2)] ["A", "A"] =
    [⟨"Liability", "⚠️",
      [⟨true, true, "liability detail"⟩, ⟨true, true, "liability detail"⟩]⟩] := by
  rfl

/-- C10: the matrix builder resolves documents by name alone.  On the input
`[("A", cr1), ("A", cr2)]`, whose two pairs share the name "A", every matrix
cell in both "A" columns is computed from `cr2` — the last pair carrying the
name — and not from each pair's own result (the cell `cr1` would produce for
the "Liability" row differs). -/
theorem c10_duplicate_name :
    ∃ m, multi_compare [("A", cr1), ("A", cr2)] = .ok m ∧
      (∀ row ∈ m.matrix, row.cells =
        [cellOf row.category cr2, cellOf row.category cr2]) ∧
      cellOf "Liability" cr1 ≠ cellOf "Liability" cr2 := by
  refine ⟨_, rfl, ?_, by decide⟩
  show ∀ row ∈ build_matrix [("A", cr1), ("A", cr2)]
      ((rankingsOf [("A", cr1), ("A", cr2)]).map (fun r => r.name)), row.cells =
    [cellOf row.category cr2, cellOf row.category cr2]
  rw [cr_names, cr_matrix]
  decide

/-- C6 counterexample: on the input `[("A", cr1), ("A", cr2)]` (two pairs
sharing one name) the category "Refunds" is observed in the union of the
inputs' key points but has no row in the category matrix, because the matrix
builder resolves documents by name and the duplicated name collapses to the
last pair's result.  So the claim's matrix property fails without a
distinct-names hypothesis. -/
theorem c6_counterexample :
    ∃ m, multi_compare [("A", cr1), ("A", cr2)] = .ok m ∧
      (∃ p ∈ [("A", cr1), ("A", cr2)], ∃ kp ∈ p.2.key_points, kp.category = "Refunds") ∧
      "Refunds" ∉ m.matrix.map (fun row => row.category) := by
  refine ⟨_, rfl, by decide, ?_⟩
  show "Refunds" ∉ (build_matrix [("A", cr1), ("A", cr2)]
      ((rankingsOf [("A", cr1), ("A", cr2)]).map (fun r => r.name))).map
      (fun row => row.category)
  rw [cr_names, cr_matrix]
  decide


theorem roundHalfEven_natCast (n : ℕ) : roundHalfEven (n : ℚ) = n := by
  unfold roundHalfEven
  rw [show ⌊(n : ℚ)⌋ = (n : ℤ) from Int.floor_natCast n]
  norm_num

theorem round1_composite (r : AnalysisResult) :
    round1 (composite_score r) = composite_score r := by
  have h : composite_score r * 10 =
      ((r.risk_score * 5 + r.red_flags.length * 12 + watchCount r * 6 : ℕ) : ℚ) := by
    unfold composite_score
    push_cast
    ring
  unfold round1
  rw [h, roundHalfEven_natCast]
  push_cast at h ⊢
  linarith

theorem enumFrom_map_fst_add_one {α : Type} :
    ∀ (l : List α) (n : ℕ),
      (l.enumFrom n).map (fun ie => ie.1 + 1) = List.range' (n + 1) l.length
  | [], _ => rfl
  | a :: l, n => by
    simp only [List.enumFrom, List.map, List.length_cons, List.range'_succ]
    rw [enumFrom_map_fst_add_one l (n + 1)]

theorem enumFrom_map_filter_map {α β γ : Type} (f : ℕ × α → β) (q : β → Bool) (p : α → Bool)
    (g : β → γ) (g0 : α → γ) (hq : ∀ n a, q (f (n, a)) = p a)
    (hg : ∀ n a, g (f (n, a)) = g0 a) :
    ∀ (l : List α) (n : ℕ),
      (((l.enumFrom n).map f).filter q).map g = (l.filter p).map g0
  | [], _ => rfl
  | a :: l, n => by
    simp only [List.enumFrom, List.map, List.filter_cons, hq, hg]
    cases hpa : p a with
    | false => exact enumFrom_map_filter_map f q p g g0 hq hg l (n + 1)
    | true =>
      simp only [List.map, hg]
      rw [enumFrom_map_filter_map f q p g g0 hq hg l (n + 1)]

theorem filter_orderedInsert_pos {α : Type} (r : α → α → Prop) [DecidableRel r]
    (p : α → Bool) (a : α) :
    ∀ (l : List α), p a = true → (∀ b ∈ l, ¬ r a b → p b = false) →
      (List.orderedInsert r a l).filter p = a :: l.filter p
  | [], hpa, _ => by simp [List.orderedInsert, hpa]
  | b :: l, hpa, H => by
    simp only [List.orderedInsert]
    by_cases hr : r a b
    · rw [if_pos hr]
      simp [List.filter_cons, hpa]
    · rw [if_neg hr]
      have hpb : p b = false := H b (List.mem_cons_self b l) hr
      simp only [List.filter_cons, hpb, if_neg, Bool.false_eq_true, if_false]
      exact filter_orderedInsert_pos r p a l hpa
        (fun c hc => H c (List.mem_cons_of_mem b hc))

theorem filter_orderedInsert_neg {α : Type} (r : α → α → Prop) [DecidableRel r]
    (p : α → Bool) (a : α) (hpa : p a = false) :
    ∀ (l : List α), (List.orderedInsert r a l).filter p = l.filter p
  | [] => by simp [List.orderedInsert, hpa]
  | b :: l => by
    simp only [List.orderedInsert]
    by_cases hr : r a b
    · rw [if_pos hr]
      simp [List.filter_cons, hpa]
    · rw [if_neg hr]
      simp only [List.filter_cons]
      rw [filter_orderedInsert_neg r p a hpa l]

theorem filter_insertionSort {α : Type} (r : α → α → Prop) [DecidableRel r]
    (p : α → Bool) (hp : ∀ a b, p a = true → p b = true → r a b) :
    ∀ (l : List α), (List.insertionSort r l).filter p = l.filter p
  | [] => rfl
  | a :: l => by
    simp only [List.insertionSort]
    cases hpa : p a with
    | true =>
      rw [filter_orderedInsert_pos r p a _ hpa ?_]
      · rw [filter_insertionSort r p hp l, List.filter_cons, if_pos hpa]
      · intro b hb hr
        cases hpb : p b with
        | false => rfl
        | true => exact absurd (hp a b hpa hpb) hr
    | false =>
      rw [filter_orderedInsert_neg r p a hpa, filter_insertionSort r p hp l,
        List.filter_cons]
      simp [hpa]

theorem lookup_eq_of_nodup {α : Type} :
    ∀ {l : List (String × α)}, (l.map Prod.fst).Nodup →
      ∀ {n : String} {r : α}, (n, r) ∈ l → l.lookup n = some r := by
  intro l
  induction l with
  | nil => intro _ n r h; cases h
  | cons a t ih =>
    intro hnd n r h
    rw [List.map_cons, List.nodup_cons] at hnd
    obtain ⟨a1, a2⟩ := a
    rw [List.lookup_cons]
    rcases List.mem_cons.mp h with heq | hmem
    · obtain ⟨rfl, rfl⟩ := Prod.mk.injEq .. ▸ congrArg id heq
      simp
    · have hne : n ≠ a1 := by
        rintro rfl
        exact hnd.1 (List.mem_map.mpr ⟨(n, r), hmem, rfl⟩)
      have : (n == a1) = false := beq_eq_false_iff_ne.mpr hne
      rw [this]
      exact ih hnd.2 hmem

theorem lookupLast_eq {pairs : List (String × AnalysisResult)}
    (hnd : (pairs.map Prod.fst).Nodup) {n : String} {r : AnalysisResult}
    (h : (n, r) ∈ pairs) : lookupLast pairs n = some r := by
  unfold lookupLast
  refine lookup_eq_of_nodup ?_ (List.mem_reverse.mpr h)
  rw [List.map_reverse]
  exact List.nodup_reverse.mpr hnd


theorem catStep_fold_mem :
    ∀ (kps : List KeyPoint) (acc : List (String × String)) (c : String),
      (c ∈ (kps.foldl catStep acc).map Prod.fst ↔
        c ∈ acc.map Prod.fst ∨ ∃ kp ∈ kps, kp.category = c)
  | [], acc, c => by simp
  | kp :: kps, acc, c => by
    rw [List.foldl_cons, catStep_fold_mem kps (catStep acc kp) c]
    unfold catStep
    by_cases hc : (acc.map Prod.fst).contains kp.category
    · rw [if_pos hc]
      have hmem : kp.category ∈ acc.map Prod.fst := by
        rcases List.contains_iff_exists_mem_beq.mp hc with ⟨a, ha, hbeq⟩
        exact (beq_iff_eq.mp hbeq) ▸ ha
      constructor
      · rintro (h | ⟨k, hk, rfl⟩)
        · exact Or.inl h
        · exact Or.inr ⟨k, List.mem_cons_of_mem kp hk, rfl⟩
      · rintro (h | ⟨k, hk, rfl⟩)
        · exact Or.inl h
        · rcases List.mem_cons.mp hk with rfl | hk'
          · exact Or.inl hmem
          · exact Or.inr ⟨k, hk', rfl⟩
    · rw [if_neg hc]
      rw [List.map_append, List.map_cons, List.map_nil]
      constructor
      · rintro (h | ⟨k, hk, rfl⟩)
        · rcases List.mem_append.mp h with h' | h'
          · exact Or.inl h'
          · rcases List.mem_singleton.mp h' with rfl
            exact Or.inr ⟨kp, List.mem_cons_self kp kps, rfl⟩
        · exact Or.inr ⟨k, List.mem_cons_of_mem kp hk, rfl⟩
      · rintro (h | ⟨k, hk, rfl⟩)
        · exact Or.inl (List.mem_append.mpr (Or.inl h))
        · rcases List.mem_cons.mp hk with rfl | hk'
          · exact Or.inl (List.mem_append.mpr (Or.inr (List.mem_singleton.mpr rfl)))
          · exact Or.inr ⟨k, hk', rfl⟩

theorem catStep_fold_nodup :
    ∀ (kps : List KeyPoint) (acc : List (String × String)),
      (acc.map Prod.fst).Nodup → ((kps.foldl catStep acc).map Prod.fst).Nodup
  | [], acc, h => h
  | kp :: kps, acc, h => by
    rw [List.foldl_cons]
    refine catStep_fold_nodup kps (catStep acc kp) ?_
    unfold catStep
    by_cases hc : (acc.map Prod.fst).contains kp.category
    · rw [if_pos hc]; exact h
    · rw [if_neg hc]
      rw [List.map_append, List.map_cons, List.map_nil]
      rw [List.nodup_append]
      refine ⟨h, List.nodup_singleton _, ?_⟩
      intro a ha hb
      rcases List.mem_singleton.mp hb with rfl
      exact hc (List.contains_iff_exists_mem_beq.mpr ⟨kp.category, ha, beq_iff_eq.mpr rfl⟩)

theorem collectCats_go_mem :
    ∀ (docs : List (String × AnalysisResult)) (acc : List (String × String)) (c : String),
      (c ∈ (docs.foldl (fun acc d => d.2.key_points.foldl catStep acc) acc).map Prod.fst ↔
        c ∈ acc.map Prod.fst ∨ ∃ d ∈ docs, ∃ kp ∈ d.2.key_points, kp.category = c)
  | [], acc, c => by simp
  | d :: docs, acc, c => by
    rw [List.foldl_cons, collectCats_go_mem docs _ c, catStep_fold_mem]
    constructor
    · rintro ((h | h) | h)
      · exact Or.inl h
      · exact Or.inr ⟨d, List.mem_cons_self d docs, h⟩
      · rcases h with ⟨e, he, hk⟩
        exact Or.inr ⟨e, List.mem_cons_of_mem d he, hk⟩
    · rintro (h | ⟨e, he, hk⟩)
      · exact Or.inl (Or.inl h)
      · rcases List.mem_cons.mp he with rfl | he'
        · exact Or.inl (Or.inr hk)
        · exact Or.inr ⟨e, he', hk⟩

theorem collectCats_mem (docs : List (String × AnalysisResult)) (c : String) :
    c ∈ (collectCats docs).map Prod.fst ↔
      ∃ d ∈ docs, ∃ kp ∈ d.2.key_points, kp.category = c := by
  unfold collectCats
  rw [collectCats_go_mem docs [] c]
  simp

theorem collectCats_nodup (docs : List (String × AnalysisResult)) :
    ((collectCats docs).map Prod.fst).Nodup := by
  unfold collectCats
  have h : ∀ (ds : List (String × AnalysisResult)) (acc : List (String × String)),
      (acc.map Prod.fst).Nodup →
      ((ds.foldl (fun acc d => d.2.key_points.foldl catStep acc) acc).map Prod.fst).Nodup := by
    intro ds
    induction ds with
    | nil => exact fun _ h => h
    | cons d ds ih =>
      intro acc hacc
      rw [List.foldl_cons]
      exact ih _ (catStep_fold_nodup d.2.key_points acc hacc)
  exact h docs [] (by simp)


theorem rankings_map_rank (pairs : List (String × AnalysisResult)) :
    (rankingsOf pairs).map (fun dr => dr.rank) = List.range' 1 pairs.length := by
  unfold rankingsOf
  rw [List.map_map]
  show ((sortedScoredOf pairs).enumFrom 0).map (fun ie => ie.1 + 1) =
    List.range' 1 pairs.length
  rw [enumFrom_map_fst_add_one, sortedScoredOf_length]

theorem rankings_name_result_mem {pairs : List (String × AnalysisResult)}
    {dr : DocRanking} (h : dr ∈ rankingsOf pairs) : (dr.name, dr.result) ∈ pairs := by
  rcases List.mem_iff_getElem.mp h with ⟨i, hi, rfl⟩
  have hi' : i < (sortedScoredOf pairs).length := by
    rw [← rankingsOf_length]; exact hi
  rw [rankingsOf_getElem pairs i hi hi']
  exact (sortedScoredOf_mem (List.getElem_mem hi')).2

theorem mem_rankings_map_iff (pairs : List (String × AnalysisResult))
    (x : String × AnalysisResult) :
    x ∈ (rankingsOf pairs).map (fun dr => (dr.name, dr.result)) ↔ x ∈ pairs := by
  constructor
  · intro hx
    rcases List.mem_map.mp hx with ⟨dr, hdr, rfl⟩
    exact rankings_name_result_mem hdr
  · intro hx
    have h1 : (x.1, x.2, composite_score x.2) ∈ scoredOf pairs :=
      List.mem_map.mpr ⟨x, hx, rfl⟩
    have h2 : (x.1, x.2, composite_score x.2) ∈ sortedScoredOf pairs :=
      ((List.perm_insertionSort scoreLE (scoredOf pairs)).mem_iff).mpr h1
    rcases List.mem_iff_getElem.mp h2 with ⟨i, hi, hieq⟩
    have hi2 : i < (rankingsOf pairs).length := by
      rw [rankingsOf_length]; exact hi
    refine List.mem_map.mpr ⟨(rankingsOf pairs)[i], List.getElem_mem hi2, ?_⟩
    rw [rankingsOf_getElem pairs i hi2 hi]
    show (((sortedScoredOf pairs)[i]).1, ((sortedScoredOf pairs)[i]).2.1) = x
    rw [hieq]

theorem rankings_total_le (pairs : List (String × AnalysisResult)) :
    ∀ dr ∈ rankingsOf pairs,
      ((rankingsOf pairs).headD defaultDR).total_score ≤ dr.total_score := by
  intro dr hdr
  rcases List.mem_iff_getElem.mp hdr with ⟨j, hj, rfl⟩
  have hj' : j < (sortedScoredOf pairs).length := by
    rw [← rankingsOf_length]; exact hj
  have hlen : 0 < (rankingsOf pairs).length := lt_of_le_of_lt (Nat.zero_le j) hj
  have hlen' : 0 < (sortedScoredOf pairs).length := by
    rw [← rankingsOf_length]; exact hlen
  have hhead : (rankingsOf pairs).headD defaultDR = (rankingsOf pairs)[0] := by
    rw [List.headD_eq_head?_getD, List.head?_eq_getElem?, List.getElem?_eq_getElem hlen]
    rfl
  rw [hhead, rankingsOf_getElem pairs 0 hlen hlen', rankingsOf_getElem pairs j hj hj']
  show round1 (((sortedScoredOf pairs)[0]).2.2) ≤
    round1 (((sortedScoredOf pairs)[j]).2.2)
  rw [(sortedScoredOf_mem (List.getElem_mem hlen')).1,
    (sortedScoredOf_mem (List.getElem_mem hj')).1, round1_composite, round1_composite,
    ← (sortedScoredOf_mem (List.getElem_mem hlen')).1,
    ← (sortedScoredOf_mem (List.getElem_mem hj')).1]
  exact sortedScoredOf_le pairs (Nat.zero_le j) hj' hlen'

theorem rankings_filter_stable (pairs : List (String × AnalysisResult)) (qq : ℚ) :
    ((rankingsOf pairs).filter (fun dr => decide (composite_score dr.result = qq))).map
      (fun dr => (dr.name, dr.result)) =
      pairs.filter (fun p => decide (composite_score p.2 = qq)) := by
  have h := enumFrom_map_filter_map
    (fun ie : ℕ × (String × AnalysisResult × ℚ) =>
      DocRanking.mk (ie.1 + 1) ie.2.1 ie.2.2.1 (round1 ie.2.2.2) (watchCount ie.2.2.1)
        (strengthsOf ie.2.2.1 ((sortedScoredOf pairs).map fun x => (x.1, x.2.1)))
        (weaknessesOf ie.2.2.1 ((sortedScoredOf pairs).map fun x => (x.1, x.2.1))))
    (fun dr => decide (composite_score dr.result = qq))
    (fun x => decide (composite_score x.2.1 = qq))
    (fun dr => (dr.name, dr.result))
    (fun x => (x.1, x.2.1))
    (fun _ _ => rfl) (fun _ _ => rfl)
    (sortedScoredOf pairs) 0
  have hc : (sortedScoredOf pairs).filter (fun x => decide (composite_score x.2.1 = qq)) =
      (sortedScoredOf pairs).filter (fun x => decide (x.2.2 = qq)) :=
    List.filter_congr (fun x hx => by rw [(sortedScoredOf_mem hx).1])
  have hstable : (sortedScoredOf pairs).filter (fun x => decide (x.2.2 = qq)) =
      (scoredOf pairs).filter (fun x => decide (x.2.2 = qq)) := by
    refine filter_insertionSort scoreLE (fun x => decide (x.2.2 = qq)) ?_ (scoredOf pairs)
    intro a b ha hb
    have ha' : a.2.2 = qq := of_decide_eq_true ha
    have hb' : b.2.2 = qq := of_decide_eq_true hb
    show a.2.2 ≤ b.2.2
    rw [ha', hb']
  have hlast : ((scoredOf pairs).filter (fun x => decide (x.2.2 = qq))).map
      (fun x : String × AnalysisResult × ℚ => (x.1, x.2.1)) =
      pairs.filter (fun p => decide (composite_score p.2 = qq)) := by
    unfold scoredOf
    rw [List.filter_map, List.map_map]
    have h1 : pairs.filter ((fun x : String × AnalysisResult × ℚ => decide (x.2.2 = qq)) ∘
        (fun p => (p.1, p.2, composite_score p.2))) =
        pairs.filter (fun p => decide (composite_score p.2 = qq)) :=
      List.filter_congr (fun p _ => rfl)
    rw [h1]
    have h2 : ∀ l : List (String × AnalysisResult),
        l.map ((fun x : String × AnalysisResult × ℚ => (x.1, x.2.1)) ∘
          (fun p => (p.1, p.2, composite_score p.2))) = l := by
      intro l
      induction l with
      | nil => rfl
      | cons a t ih =>
        rw [List.map_cons, ih]
        rfl
    rw [h2]
  exact h.trans ((hc.trans hstable) ▸ hlast)


theorem orderedDocs_eq (pairs : List (String × AnalysisResult))
    (hnd : (pairs.map Prod.fst).Nodup) :
    orderedDocs pairs ((rankingsOf pairs).map (fun dr => dr.name)) =
      (rankingsOf pairs).map (fun dr => (dr.name, dr.result)) := by
  unfold orderedDocs
  rw [List.map_map]
  refine List.map_congr_left ?_
  intro dr hdr
  show (dr.name, (lookupLast pairs dr.name).getD defaultAR) = (dr.name, dr.result)
  rw [lookupLast_eq hnd (rankings_name_result_mem hdr)]
  rfl

theorem build_matrix_categories (doc_pairs : List (String × AnalysisResult))
    (rn : List String) :
    (build_matrix doc_pairs rn).map (fun row => row.category) =
      (List.insertionSort catLE (collectCats (orderedDocs doc_pairs rn))).map Prod.fst := by
  unfold build_matrix
  rw [List.map_map]
  rfl

theorem build_matrix_nodup (doc_pairs : List (String × AnalysisResult))
    (rn : List String) :
    ((build_matrix doc_pairs rn).map (fun row => row.category)).Nodup := by
  rw [build_matrix_categories]
  have hperm := (List.perm_insertionSort catLE
    (collectCats (orderedDocs doc_pairs rn))).map Prod.fst
  exact hperm.nodup_iff.mpr (collectCats_nodup _)

theorem build_matrix_mem_cat (doc_pairs : List (String × AnalysisResult))
    (rn : List String) (c : String) :
    c ∈ (build_matrix doc_pairs rn).map (fun row => row.category) ↔
      ∃ d ∈ orderedDocs doc_pairs rn, ∃ kp ∈ d.2.key_points, kp.category = c := by
  rw [build_matrix_categories]
  rw [((List.perm_insertionSort catLE
    (collectCats (orderedDocs doc_pairs rn))).map Prod.fst).mem_iff]
  exact collectCats_mem _ c

theorem build_matrix_cells (doc_pairs : List (String × AnalysisResult))
    (rn : List String) :
    ∀ row ∈ build_matrix doc_pairs rn,
      row.cells = (orderedDocs doc_pairs rn).map (fun d => cellOf row.category d.2) := by
  intro row hrow
  unfold build_matrix at hrow
  rcases List.mem_map.mp hrow with ⟨ci, hci, rfl⟩
  rfl

/-- C6 (amended): for a `multi_compare` run over pairwise-distinct document
names, the rankings' rank fields are exactly 1..N in order, the rank-1
document's total score is minimal, documents with equal composite score keep
their original input order (stable sort), and the category matrix has exactly
one row per key-point category observed across the union of the inputs, with
one cell per document, columns ordered by rank.  (The original claim, which
does not require distinct names, is false: the matrix builder resolves
documents by name, so duplicate names collapse to the last pair's result and
categories of the earlier duplicates can be missing.) -/
theorem c6_amended (pairs : List (String × AnalysisResult)) (m : MultiCompareResult)
    (hm : multi_compare pairs = .ok m) (hnd : (pairs.map Prod.fst).Nodup) :
    m.rankings.map (fun dr => dr.rank) = List.range' 1 pairs.length ∧
    (∀ dr ∈ m.rankings, (m.rankings.headD defaultDR).total_score ≤ dr.total_score) ∧
    (∀ q : ℚ, (m.rankings.filter (fun dr => decide (composite_score dr.result = q))).map
        (fun dr => (dr.name, dr.result)) =
      pairs.filter (fun p => decide (composite_score p.2 = q))) ∧
    (m.matrix.map (fun row => row.category)).Nodup ∧
    (∀ c : String, c ∈ m.matrix.map (fun row => row.category) ↔
      ∃ p ∈ pairs, ∃ kp ∈ p.2.key_points, kp.category = c) ∧
    (∀ row ∈ m.matrix,
      row.cells = m.rankings.map (fun dr => cellOf row.category dr.result)) ∧
    (∀ row ∈ m.matrix, row.cells.length = pairs.length) := by
  obtain ⟨-, hrk, hmx⟩ := multi_compare_ok hm
  have hcells : ∀ row ∈ m.matrix,
      row.cells = m.rankings.map (fun dr => cellOf row.category dr.result) := by
    intro row hrow
    rw [hmx] at hrow
    rw [build_matrix_cells _ _ row hrow, orderedDocs_eq pairs hnd, List.map_map, hrk]
    rfl
  refine ⟨?_, ?_, ?_, ?_, ?_, hcells, ?_⟩
  · rw [hrk]; exact rankings_map_rank pairs
  · rw [hrk]; exact rankings_total_le pairs
  · intro q; rw [hrk]; exact rankings_filter_stable pairs q
  · rw [hmx]; exact build_matrix_nodup pairs _
  · intro c
    rw [hmx, build_matrix_mem_cat, orderedDocs_eq pairs hnd]
    constructor
    · rintro ⟨d, hd, hkp⟩
      exact ⟨d, (mem_rankings_map_iff pairs d).mp hd, hkp⟩
    · rintro ⟨p, hp, hkp⟩
      exact ⟨p, (mem_rankings_map_iff pairs p).mpr hp, hkp⟩
  · intro row hrow
    rw [hcells row hrow, List.length_map, hrk, rankingsOf_length, sortedScoredOf_length]

theorem c6_amended_witness :
    (witPairs.map Prod.fst).Nodup ∧
      witM.rankings.map (fun dr => dr.rank) = List.range' 1 witPairs.length :=
  ⟨by decide, (c6_amended witPairs witM wit_mc (by decide)).1⟩

end TCA
